import Mathlib

/-!
Verification of the PassportEye MRZ parsing core
(`passporteye/mrz/text.py` and `passporteye/mrz/mrz_parsers.py`).

Python strings are modelled as `List Char` (ASCII model: `str.upper` is
`Char.toUpper`, which coincides with Python for all ASCII characters).
Python integer division on non-negative values is `Nat` division; the
weighted check-digit sum, which can go negative via the `-1000` sentinel,
is computed in `Int`.
-/

/-- Convert a Lean string literal to the `List Char` model of a Python string. -/
def pystr (s : String) : List Char := s.data

/-- Python `s[i:j]` for non-negative `i ≤ j` (clamping at the ends, never failing). -/
def pySlice (s : List Char) (i j : Nat) : List Char := (s.take j).drop i

/-- Python `s[i]` as a one-character string; used only at in-bounds positions. -/
def pyAt (s : List Char) (i : Nat) : List Char := (s.drop i).take 1

/-- `MRZCheckDigit.__init__`: the `CHECK_CODES` table as a function.
Digits map to 0-9, capital letters to 10-35, the filler to 0; `dict.get(c, -1000)`
yields the `-1000` sentinel for every other character. -/
def checkCode (c : Char) : Int :=
  if 48 ≤ c.toNat ∧ c.toNat ≤ 57 then (c.toNat : Int) - 48
  else if 65 ≤ c.toNat ∧ c.toNat ≤ 90 then (c.toNat : Int) - 55
  else if c = '<' then 0
  else -1000

/-- `CHECK_WEIGHTS[i % 3]` for `CHECK_WEIGHTS = [7, 3, 1]`. -/
def checkWeight (i : Nat) : Int :=
  if i % 3 = 0 then 7 else if i % 3 = 1 then 3 else 1

/-- The sum `sum([CHECK_CODES.get(c, -1000) * CHECK_WEIGHTS[i % 3] for i, c in enumerate(txt)])`
written as a recursion carrying the enumeration index. -/
def checkSumFrom (i : Nat) : List Char → Int
  | [] => 0
  | c :: rest => checkCode c * checkWeight i + checkSumFrom (i + 1) rest

/-- The weighted sum over the whole text, starting at index 0. -/
def checkSum (s : List Char) : Int := checkSumFrom 0 s

/-- `MRZCheckDigit.__call__` / `MRZCheckDigit.compute`: empty input gives the empty
string; a negative weighted sum gives the empty string; otherwise `str(res % 10)`. -/
def MRZCheckDigit.compute (txt : List Char) : List Char :=
  if txt = [] then []
  else
    let res := checkSum txt
    if res < 0 then [] else [Nat.digitChar ((res % 10).toNat)]

/-- A character of the MRZ alphabet: digit, capital letter, or the filler `<`. -/
def isMRZChar (c : Char) : Prop :=
  (48 ≤ c.toNat ∧ c.toNat ≤ 57) ∨ (65 ≤ c.toNat ∧ c.toNat ≤ 90) ∨ c = '<'

instance (c : Char) : Decidable (isMRZChar c) := by
  unfold isMRZChar; infer_instance

/-- The character value as stated in the specification: '0'-'9' map to 0-9,
'A'-'Z' to 10-35 and '<' to 0 (a `Nat`, defined from the spec's wording for
comparison with the implementation's `checkCode`). -/
def specCharValue (c : Char) : Nat :=
  if 48 ≤ c.toNat ∧ c.toNat ≤ 57 then c.toNat - 48
  else if 65 ≤ c.toNat ∧ c.toNat ≤ 90 then c.toNat - 55
  else 0

/-- The specification's weighted sum over valid characters, in `Nat`. -/
def specSumFrom (i : Nat) : List Char → Nat
  | [] => 0
  | c :: rest => specCharValue c * (checkWeight i).toNat + specSumFrom (i + 1) rest

/-- The specification's weighted sum starting at position 0. -/
def specSum (s : List Char) : Nat := specSumFrom 0 s

/-- `datetime.strptime`'s `%y` directive: candidate parses in regex order
(two digits first, then one), each with the remaining input. -/
def yAlts : List Char → List (Nat × List Char)
  | a :: b :: r =>
    if a.isDigit ∧ b.isDigit then
      [((a.toNat - 48) * 10 + (b.toNat - 48), r), (a.toNat - 48, b :: r)]
    else if a.isDigit then [(a.toNat - 48, b :: r)] else []
  | [a] => if a.isDigit then [(a.toNat - 48, [])] else []
  | [] => []

/-- `%m` candidates, in the order of the `_strptime` regex
`1[0-2]|0[1-9]|[1-9]`. -/
def mAlts : List Char → List (Nat × List Char)
  | a :: b :: r =>
    (if a = '1' ∧ '0' ≤ b ∧ b ≤ '2' then [(10 + (b.toNat - 48), r)] else []) ++
    (if a = '0' ∧ '1' ≤ b ∧ b ≤ '9' then [(b.toNat - 48, r)] else []) ++
    (if '1' ≤ a ∧ a ≤ '9' then [(a.toNat - 48, b :: r)] else [])
  | [a] => if '1' ≤ a ∧ a ≤ '9' then [(a.toNat - 48, [])] else []
  | [] => []

/-- `%d` candidates, in the order of the `_strptime` regex
`3[01]|[12]\d|0[1-9]|[1-9]`. -/
def dAlts : List Char → List (Nat × List Char)
  | a :: b :: r =>
    (if a = '3' ∧ ('0' ≤ b ∧ b ≤ '1') then [(30 + (b.toNat - 48), r)] else []) ++
    (if ('1' ≤ a ∧ a ≤ '2') ∧ b.isDigit then [((a.toNat - 48) * 10 + (b.toNat - 48), r)] else []) ++
    (if a = '0' ∧ '1' ≤ b ∧ b ≤ '9' then [(b.toNat - 48, r)] else []) ++
    (if '1' ≤ a ∧ a ≤ '9' then [(a.toNat - 48, b :: r)] else [])
  | [a] => if '1' ≤ a ∧ a ≤ '9' then [(a.toNat - 48, [])] else []
  | [] => []

/-- Leftmost match of the `%y%m%d` regex against a prefix of the input, with the
regex engine's backtracking order (alternatives tried in the order listed above). -/
def strptimeYMD (s : List Char) : Option (Nat × Nat × Nat × List Char) :=
  (yAlts s).findSome? fun yr =>
    (mAlts yr.2).findSome? fun mr =>
      (dAlts mr.2).findSome? fun dr => some (yr.1, mr.1, dr.1, dr.2)

/-- Gregorian leap-year rule used by `datetime`. -/
def isLeap (y : Nat) : Bool := y % 4 = 0 && (y % 100 ≠ 0 || y % 400 = 0)

/-- Days in a month of a given year (as enforced by the `datetime` constructor). -/
def daysInMonth (y m : Nat) : Nat :=
  if m = 2 then (if isLeap y then 29 else 28)
  else if m = 4 ∨ m = 6 ∨ m = 9 ∨ m = 11 then 30 else 31

/-- The `%y` pivot: two-digit years 0-68 map to 2000-2068, 69-99 to 1969-1999. -/
def pivotYear (y : Nat) : Nat := if y ≤ 68 then 2000 + y else 1900 + y

/-- `MRZBaseParser._check_date`: `datetime.strptime(ymd, '%y%m%d')` succeeds
(the regex matches, consumes the whole string, and the day exists in the
month) - returns `False` on any `ValueError`. -/
def checkDate (ymd : List Char) : Bool :=
  match strptimeYMD ymd with
  | none => false
  | some (y, m, d, rest) => rest = [] && d ≤ daysInMonth (pivotYear y) m

/-- The five recognised MRZ formats (`'TD1' | 'TD2' | 'TD3' | 'MRVA' | 'MRVB'`);
`MRZ._guess_type` returning `None` is `Option.none`. -/
inductive Fmt
  | TD1 | TD2 | TD3 | MRVA | MRVB
deriving DecidableEq, Repr

/-- A Python value passed as an MRZ "line": either a string or a non-string
(modelled by an integer, as in the repository's doctests `MRZ([1,2,3])`),
on which `len()` and indexing raise. -/
inductive PyVal
  | str (s : List Char)
  | int (n : Int)
deriving DecidableEq

/-- Python `len(v)`: defined for strings, raises (`none`) otherwise. -/
def pyLen : PyVal → Option Nat
  | .str s => some s.length
  | .int _ => none

/-- Python `v[i]` for a single character: defined on strings at in-range
indices, raises (`none`) otherwise. -/
def pyIndex : PyVal → Nat → Option Char
  | .str s, i => s.get? i
  | .int _, _ => none

/-- The branch `'X' if mrz_lines[0][0].upper() == 'V' else 'Y'`; an
out-of-range index or a non-string raises, which `_guess_type` turns
into `None`. -/
def vBranch (l0 : PyVal) (fv fo : Fmt) : Option Fmt :=
  match pyIndex l0 0 with
  | none => none
  | some c => some (if c.toUpper = 'V' then fv else fo)

/-- `MRZ._guess_type`: three lines give TD1; two lines both shorter than 40
give MRVB/TD2 by leading character, two lines otherwise give MRVA/TD3; any
other count, or any failing `len()`/indexing, gives `None`.  (The Python
`if/elif` chain tests the line count first; since the counts are disjoint the
match below is equivalent, and the short-circuit of
`len(a) < 40 and len(b) < 40` is preserved: `len(b)` is only evaluated when
`len(a) < 40`.) -/
def guessType (lines : List PyVal) : Option Fmt :=
  match lines with
  | [_, _, _] => some Fmt.TD1
  | [l0, l1] =>
    match pyLen l0 with
    | none => none
    | some n0 =>
      if n0 < 40 then
        match pyLen l1 with
        | none => none
        | some n1 =>
          if n1 < 40 then vBranch l0 Fmt.MRVB Fmt.TD2
          else vBranch l0 Fmt.MRVA Fmt.TD3
      else vBranch l0 Fmt.MRVA Fmt.TD3
  | _ => none

/-- `if len(a) < n: a = a + '<' * (n - len(a))` - the padding used by
`parse_td1` (n=30), `parse_td2` (n=36) and `parse_td3` (n=44). -/
def padTD (n : Nat) (s : List Char) : List Char :=
  if s.length < n then s ++ List.replicate (n - s.length) '<' else s

/-- The padding used by `parse_mrv`: note the hard-coded 44 in
`a + '<' * (44 - len(a))`, applied whenever `len(a) < length`. -/
def padMRV (length : Nat) (s : List Char) : List Char :=
  if s.length < length then s ++ List.replicate (44 - s.length) '<' else s

/-- `c.split('<<', 1)` followed by the `if len(surname_names) < 2` fixup:
the pair (surname part, names part), the names part empty when no `<<`
occurs. -/
def splitSurnameNames : List Char → List Char × List Char
  | '<' :: '<' :: rest => ([], rest)
  | ch :: rest =>
    let p := splitSurnameNames rest
    (ch :: p.1, p.2)
  | [] => ([], [])

/-- The whitespace stripped by Python `str.strip()` (the `Py_UNICODE_ISSPACE`
set): tab through carriage return (9-13), the file/group/record/unit
separators (28-31), the space, NEL (0x85), the no-break space (0xA0), the
Ogham space mark (0x1680), the Unicode space block (0x2000-0x200A), the line
and paragraph separators (0x2028, 0x2029), the narrow no-break space (0x202F),
the medium mathematical space (0x205F) and the ideographic space (0x3000). -/
def pyIsStrippable (ch : Char) : Bool :=
  (9 ≤ ch.toNat && ch.toNat ≤ 13) || (28 ≤ ch.toNat && ch.toNat ≤ 31) || ch.toNat = 32 ||
  ch.toNat = 133 || ch.toNat = 160 || ch.toNat = 5760 ||
  (8192 ≤ ch.toNat && ch.toNat ≤ 8202) || ch.toNat = 8232 || ch.toNat = 8233 ||
  ch.toNat = 8239 || ch.toNat = 8287 || ch.toNat = 12288

/-- `.replace('<', ' ').strip()` applied to a name part. -/
def cleanName (l : List Char) : List Char :=
  (((l.map fun ch => if ch = '<' then ' ' else ch).dropWhile
      pyIsStrippable).reverse.dropWhile pyIsStrippable).reverse

/-- Result of `MRZBaseParser.parse_td1` (also of `MRZParserEsp.parse_td1`):
every entry of the returned `data` dictionary, plus the returned
`valid_score == 100` flag. -/
structure TD1Result where
  type : List Char
  country : List Char
  number : List Char
  check_number : List Char
  optional1 : List Char
  date_of_birth : List Char
  check_date_of_birth : List Char
  sex : List Char
  expiration_date : List Char
  check_expiration_date : List Char
  nationality : List Char
  optional2 : List Char
  check_composite : List Char
  surname : List Char
  names : List Char
  valid_check_digits : List Bool
  valid_line_lengths : List Bool
  valid_misc : List Bool
  valid_score : Nat
  valid_number : Bool
  valid_date_of_birth : Bool
  valid_expiration_date : Bool
  valid_composite : Bool
  valid : Bool
deriving Repr

/-- `MRZBaseParser.parse_td1` on three line strings. -/
def parseTD1 (A B C : List Char) : TD1Result :=
  let lenA := A.length
  let lenB := B.length
  let lenC := C.length
  let a := padTD 30 A
  let b := padTD 30 B
  let c := padTD 30 C
  let number := pySlice a 5 14
  let check_number := pyAt a 14
  let dob := pySlice b 0 6
  let check_dob := pyAt b 6
  let exp := pySlice b 8 14
  let check_exp := pyAt b 14
  let check_comp := pyAt b 29
  let sn := splitSurnameNames c
  let vcd := [decide (MRZCheckDigit.compute number = check_number),
    decide (MRZCheckDigit.compute dob = check_dob) && checkDate dob,
    decide (MRZCheckDigit.compute exp = check_exp) && checkDate exp,
    decide (MRZCheckDigit.compute
      (pySlice a 5 30 ++ pySlice b 0 7 ++ pySlice b 8 15 ++ pySlice b 18 29) = check_comp)]
  let vll := [decide (lenA = 30), decide (lenB = 30), decide (lenC = 30)]
  let vmisc := [decide (pyAt a 0 = [('I' : Char)] ∨ pyAt a 0 = [('A' : Char)] ∨ pyAt a 0 = [('C' : Char)])]
  let score := 100 * (10 * vcd.count true + vll.count true + vmisc.count true + 1) / (40 + 3 + 1 + 1)
  { type := pySlice a 0 2
    country := pySlice a 2 5
    number := number
    check_number := check_number
    optional1 := pySlice a 15 30
    date_of_birth := dob
    check_date_of_birth := check_dob
    sex := pyAt b 7
    expiration_date := exp
    check_expiration_date := check_exp
    nationality := pySlice b 15 18
    optional2 := pySlice b 18 29
    check_composite := check_comp
    surname := cleanName sn.1
    names := cleanName sn.2
    valid_check_digits := vcd
    valid_line_lengths := vll
    valid_misc := vmisc
    valid_score := score
    valid_number := vcd.getD 0 false
    valid_date_of_birth := vcd.getD 1 false
    valid_expiration_date := vcd.getD 2 false
    valid_composite := vcd.getD 3 false
    valid := decide (score = 100) }

/-- Result of `MRZBaseParser.parse_td2`. -/
structure TD2Result where
  type : List Char
  country : List Char
  number : List Char
  check_number : List Char
  optional1 : List Char
  date_of_birth : List Char
  check_date_of_birth : List Char
  sex : List Char
  expiration_date : List Char
  check_expiration_date : List Char
  nationality : List Char
  check_composite : List Char
  surname : List Char
  names : List Char
  valid_check_digits : List Bool
  valid_line_lengths : List Bool
  valid_misc : List Bool
  valid_score : Nat
  valid_number : Bool
  valid_date_of_birth : Bool
  valid_expiration_date : Bool
  valid_composite : Bool
  valid : Bool
deriving Repr

/-- `MRZBaseParser.parse_td2` on two line strings. -/
def parseTD2 (A B : List Char) : TD2Result :=
  let lenA := A.length
  let lenB := B.length
  let a := padTD 36 A
  let b := padTD 36 B
  let sn := splitSurnameNames (pySlice a 5 36)
  let number := pySlice b 0 9
  let check_number := pyAt b 9
  let dob := pySlice b 13 19
  let check_dob := pyAt b 19
  let exp := pySlice b 21 27
  let check_exp := pyAt b 27
  let check_comp := pyAt b 35
  let vcd := [decide (MRZCheckDigit.compute number = check_number),
    decide (MRZCheckDigit.compute dob = check_dob) && checkDate dob,
    decide (MRZCheckDigit.compute exp = check_exp) && checkDate exp,
    decide (MRZCheckDigit.compute (pySlice b 0 10 ++ pySlice b 13 20 ++ pySlice b 21 35) = check_comp)]
  let vll := [decide (lenA = 36), decide (lenB = 36)]
  let vmisc := [decide (pyAt a 0 = [('A' : Char)] ∨ pyAt a 0 = [('C' : Char)] ∨ pyAt a 0 = [('I' : Char)])]
  let score := 100 * (10 * vcd.count true + vll.count true + vmisc.count true + 1) / (40 + 2 + 1 + 1)
  { type := pySlice a 0 2
    country := pySlice a 2 5
    number := number
    check_number := check_number
    optional1 := pySlice b 28 35
    date_of_birth := dob
    check_date_of_birth := check_dob
    sex := pyAt b 20
    expiration_date := exp
    check_expiration_date := check_exp
    nationality := pySlice b 10 13
    check_composite := check_comp
    surname := cleanName sn.1
    names := cleanName sn.2
    valid_check_digits := vcd
    valid_line_lengths := vll
    valid_misc := vmisc
    valid_score := score
    valid_number := vcd.getD 0 false
    valid_date_of_birth := vcd.getD 1 false
    valid_expiration_date := vcd.getD 2 false
    valid_composite := vcd.getD 3 false
    valid := decide (score = 100) }

/-- Result of `MRZBaseParser.parse_td3`.  The five-way unpacking
`self.valid_number, self.valid_date_of_birth, self.valid_expiration_date,
self.valid_personal_number, self.valid_composite = self.valid_check_digits`
assigns `valid_personal_number` from index 3 (the composite entry) and
`valid_composite` from index 4 (the personal-number entry). -/
structure TD3Result where
  type : List Char
  country : List Char
  number : List Char
  check_number : List Char
  date_of_birth : List Char
  check_date_of_birth : List Char
  sex : List Char
  expiration_date : List Char
  check_expiration_date : List Char
  nationality : List Char
  personal_number : List Char
  check_personal_number : List Char
  check_composite : List Char
  surname : List Char
  names : List Char
  valid_check_digits : List Bool
  valid_line_lengths : List Bool
  valid_misc : List Bool
  valid_score : Nat
  valid_number : Bool
  valid_date_of_birth : Bool
  valid_expiration_date : Bool
  valid_personal_number : Bool
  valid_composite : Bool
  valid : Bool
deriving Repr

/-- `MRZBaseParser.parse_td3` on two line strings. -/
def parseTD3 (A B : List Char) : TD3Result :=
  let lenA := A.length
  let lenB := B.length
  let a := padTD 44 A
  let b := padTD 44 B
  let sn := splitSurnameNames (pySlice a 5 44)
  let number := pySlice b 0 9
  let check_number := pyAt b 9
  let dob := pySlice b 13 19
  let check_dob := pyAt b 19
  let exp := pySlice b 21 27
  let check_exp := pyAt b 27
  let personal_number := pySlice b 28 42
  let check_pn := pyAt b 42
  let check_comp := pyAt b 43
  let vcd := [decide (MRZCheckDigit.compute number = check_number),
    decide (MRZCheckDigit.compute dob = check_dob) && checkDate dob,
    decide (MRZCheckDigit.compute exp = check_exp) && checkDate exp,
    decide (MRZCheckDigit.compute (pySlice b 0 10 ++ pySlice b 13 20 ++ pySlice b 21 43) = check_comp),
    (decide ((check_pn = [('<' : Char)] ∨ check_pn = [('0' : Char)]) ∧
        personal_number = List.replicate 14 '<') ||
      decide (MRZCheckDigit.compute personal_number = check_pn))]
  let vll := [decide (lenA = 44), decide (lenB = 44)]
  let vmisc := [decide (pyAt a 0 = [('P' : Char)])]
  let score := 100 * (10 * vcd.count true + vll.count true + vmisc.count true + 1) / (50 + 2 + 1 + 1)
  { type := pySlice a 0 2
    country := pySlice a 2 5
    number := number
    check_number := check_number
    date_of_birth := dob
    check_date_of_birth := check_dob
    sex := pyAt b 20
    expiration_date := exp
    check_expiration_date := check_exp
    nationality := pySlice b 10 13
    personal_number := personal_number
    check_personal_number := check_pn
    check_composite := check_comp
    surname := cleanName sn.1
    names := cleanName sn.2
    valid_check_digits := vcd
    valid_line_lengths := vll
    valid_misc := vmisc
    valid_score := score
    valid_number := vcd.getD 0 false
    valid_date_of_birth := vcd.getD 1 false
    valid_expiration_date := vcd.getD 2 false
    valid_personal_number := vcd.getD 3 false
    valid_composite := vcd.getD 4 false
    valid := decide (score = 100) }

/-- Result of `MRZBaseParser.parse_mrv`. -/
structure MRVResult where
  type : List Char
  country : List Char
  number : List Char
  check_number : List Char
  optional1 : List Char
  date_of_birth : List Char
  check_date_of_birth : List Char
  sex : List Char
  expiration_date : List Char
  check_expiration_date : List Char
  nationality : List Char
  surname : List Char
  names : List Char
  valid_check_digits : List Bool
  valid_line_lengths : List Bool
  valid_misc : List Bool
  valid_score : Nat
  valid_number : Bool
  valid_date_of_birth : Bool
  valid_expiration_date : Bool
  valid : Bool
deriving Repr

/-- `MRZBaseParser.parse_mrv(length)` on two line strings
(length 44 for MRVA, 36 for MRVB). -/
def parseMRV (length : Nat) (A B : List Char) : MRVResult :=
  let lenA := A.length
  let lenB := B.length
  let a := padMRV length A
  let b := padMRV length B
  let sn := splitSurnameNames (pySlice a 5 length)
  let number := pySlice b 0 9
  let check_number := pyAt b 9
  let dob := pySlice b 13 19
  let check_dob := pyAt b 19
  let exp := pySlice b 21 27
  let check_exp := pyAt b 27
  let vcd := [decide (MRZCheckDigit.compute number = check_number),
    decide (MRZCheckDigit.compute dob = check_dob),
    decide (MRZCheckDigit.compute exp = check_exp)]
  let vll := [decide (lenA = length), decide (lenB = length)]
  let vmisc := [decide (pyAt a 0 = [('V' : Char)])]
  let score := 100 * (10 * vcd.count true + vll.count true + vmisc.count true + 1) / (30 + 2 + 1 + 1)
  { type := pySlice a 0 2
    country := pySlice a 2 5
    number := number
    check_number := check_number
    optional1 := pySlice b 28 length
    date_of_birth := dob
    check_date_of_birth := check_dob
    sex := pyAt b 20
    expiration_date := exp
    check_expiration_date := check_exp
    nationality := pySlice b 10 13
    surname := cleanName sn.1
    names := cleanName sn.2
    valid_check_digits := vcd
    valid_line_lengths := vll
    valid_misc := vmisc
    valid_score := score
    valid_number := vcd.getD 0 false
    valid_date_of_birth := vcd.getD 1 false
    valid_expiration_date := vcd.getD 2 false
    valid := decide (score = 100) }

/-- `MRZParserEsp.parse_td1`: identical to `MRZBaseParser.parse_td1` except
that `number` is taken from columns 15-24 (`a[15:24]`) instead of 5-14; the
check-digit position `a[14]` and the composite input are unchanged. -/
def parseTD1Esp (A B C : List Char) : TD1Result :=
  let lenA := A.length
  let lenB := B.length
  let lenC := C.length
  let a := padTD 30 A
  let b := padTD 30 B
  let c := padTD 30 C
  let number := pySlice a 15 24
  let check_number := pyAt a 14
  let dob := pySlice b 0 6
  let check_dob := pyAt b 6
  let exp := pySlice b 8 14
  let check_exp := pyAt b 14
  let check_comp := pyAt b 29
  let sn := splitSurnameNames c
  let vcd := [decide (MRZCheckDigit.compute number = check_number),
    decide (MRZCheckDigit.compute dob = check_dob) && checkDate dob,
    decide (MRZCheckDigit.compute exp = check_exp) && checkDate exp,
    decide (MRZCheckDigit.compute
      (pySlice a 5 30 ++ pySlice b 0 7 ++ pySlice b 8 15 ++ pySlice b 18 29) = check_comp)]
  let vll := [decide (lenA = 30), decide (lenB = 30), decide (lenC = 30)]
  let vmisc := [decide (pyAt a 0 = [('I' : Char)] ∨ pyAt a 0 = [('A' : Char)] ∨ pyAt a 0 = [('C' : Char)])]
  let score := 100 * (10 * vcd.count true + vll.count true + vmisc.count true + 1) / (40 + 3 + 1 + 1)
  { type := pySlice a 0 2
    country := pySlice a 2 5
    number := number
    check_number := check_number
    optional1 := pySlice a 15 30
    date_of_birth := dob
    check_date_of_birth := check_dob
    sex := pyAt b 7
    expiration_date := exp
    check_expiration_date := check_exp
    nationality := pySlice b 15 18
    optional2 := pySlice b 18 29
    check_composite := check_comp
    surname := cleanName sn.1
    names := cleanName sn.2
    valid_check_digits := vcd
    valid_line_lengths := vll
    valid_misc := vmisc
    valid_score := score
    valid_number := vcd.getD 0 false
    valid_date_of_birth := vcd.getD 1 false
    valid_expiration_date := vcd.getD 2 false
    valid_composite := vcd.getD 3 false
    valid := decide (score = 100) }

/-- The two registered parser classes in `supported_parsers`
(`'ESP': MRZParserEsp`, `'default': MRZBaseParser`). -/
inductive ParserKind
  | base | esp
deriving DecidableEq, Repr

/-- The parser selection of `MRZ._parse`:
`country = mrz_lines[0][2:5]; parser = supported_parsers[country](...)`, any
exception (empty list, non-string first line, `KeyError` on an unregistered
code) falling back to `supported_parsers['default']`. -/
def selectParser : List PyVal → ParserKind
  | PyVal.str s :: _ => if pySlice s 2 5 = pystr ("ESP") then ParserKind.esp else ParserKind.base
  | _ => ParserKind.base

/-- The fields of the facade result that exist on every `MRZ` object:
`mrz_type`, `valid` and `valid_score` (the per-format field dictionaries are
exposed through the `parseTD*`/`parseMRV` results). -/
structure MRZResult where
  mrz_type : Option Fmt
  valid : Bool
  valid_score : Nat
deriving DecidableEq, Repr

/-- Three string lines, or the exception raised by `a, b, c = self.mrz_lines`
followed by `len(a)` on a non-string. -/
def asThreeStrs : List PyVal → Option (List Char × List Char × List Char)
  | [PyVal.str a, PyVal.str b, PyVal.str c] => some (a, b, c)
  | _ => none

/-- Two string lines, or the exception raised inside the parser. -/
def asTwoStrs : List PyVal → Option (List Char × List Char)
  | [PyVal.str a, PyVal.str b] => some (a, b)
  | _ => none

/-- The `except Exception` branch of `MRZ._parse`:
`mrz_type = None, valid = False, valid_score = 0`. -/
def degradedResult : MRZResult := { mrz_type := none, valid := false, valid_score := 0 }

/-- `MRZ._parse`: guess the type, pick the parser by country code, run the
matching `parse_*`; an `Unknown` guess keeps `mrz_type = None` with
`valid = False, valid_score = 0`, and any exception inside a parser (a
non-string line) collapses to the same degraded result. -/
def mrzParse (lines : List PyVal) : MRZResult :=
  let pk := selectParser lines
  match guessType lines with
  | some Fmt.TD1 =>
    match asThreeStrs lines with
    | some (a, b, c) =>
      let r := match pk with
        | ParserKind.esp => parseTD1Esp a b c
        | ParserKind.base => parseTD1 a b c
      { mrz_type := some Fmt.TD1, valid := r.valid, valid_score := r.valid_score }
    | none => degradedResult
  | some Fmt.TD2 =>
    match asTwoStrs lines with
    | some (a, b) =>
      let r := parseTD2 a b
      { mrz_type := some Fmt.TD2, valid := r.valid, valid_score := r.valid_score }
    | none => degradedResult
  | some Fmt.TD3 =>
    match asTwoStrs lines with
    | some (a, b) =>
      let r := parseTD3 a b
      { mrz_type := some Fmt.TD3, valid := r.valid, valid_score := r.valid_score }
    | none => degradedResult
  | some Fmt.MRVA =>
    match asTwoStrs lines with
    | some (a, b) =>
      let r := parseMRV 44 a b
      { mrz_type := some Fmt.MRVA, valid := r.valid, valid_score := r.valid_score }
    | none => degradedResult
  | some Fmt.MRVB =>
    match asTwoStrs lines with
    | some (a, b) =>
      let r := parseMRV 36 a b
      { mrz_type := some Fmt.MRVB, valid := r.valid, valid_score := r.valid_score }
    | none => degradedResult
  | none => { mrz_type := none, valid := false, valid_score := 0 }

/-- `MRZ.to_dict()` entry `result['valid_composite'] = self.valid_check_digits[3]`
for a TD3 document. -/
def toDictValidComposite (r : TD3Result) : Bool := r.valid_check_digits.getD 3 false

/-- `MRZ.to_dict()` entry `result['valid_personal_number'] = self.valid_check_digits[4]`
for a TD3 document. -/
def toDictValidPersonalNumber (r : TD3Result) : Bool := r.valid_check_digits.getD 4 false

/-- Character classes of the `MRZOCRCleaner` position tables:
`a` alpha, `A` alpha+filler, `n` numeric, `N` numeric+filler, `*` anything. -/
inductive Cls
  | ca | cA | cn | cN | cstar
deriving DecidableEq, Repr

/-- The alpha-class fixer `a = {'0': 'O', '1': 'I', '2': 'Z', '4': 'A', '5': 'S',
'6': 'G', '8': 'B'}` as `fixer.get(c, c)`. -/
def aFix (c : Char) : Char :=
  match c with
  | '0' => 'O' | '1' => 'I' | '2' => 'Z' | '4' => 'A'
  | '5' => 'S' | '6' => 'G' | '8' => 'B'
  | c => c

/-- The numeric-class fixer `n = {'B': '8', 'C': '0', 'D': '0', 'G': '6',
'I': '1', 'O': '0', 'Q': '0', 'S': '5', 'Z': '2'}` as `fixer.get(c, c)`. -/
def nFix (c : Char) : Char :=
  match c with
  | 'B' => '8' | 'C' => '0' | 'D' => '0' | 'G' => '6' | 'I' => '1'
  | 'O' => '0' | 'Q' => '0' | 'S' => '5' | 'Z' => '2'
  | c => c

/-- `FIXERS[class]` applied to an (already upper-cased) character. -/
def clsFix : Cls → Char → Char
  | Cls.ca, c => aFix c
  | Cls.cA, c => aFix c
  | Cls.cn, c => nFix c
  | Cls.cN, c => nFix c
  | Cls.cstar, c => c

/-- The `TD1` position table of `MRZOCRCleaner.__init__`. -/
def fmtTD1 : List (List Cls) :=
  [[Cls.ca, Cls.cstar] ++ List.replicate 3 Cls.cA ++ List.replicate 9 Cls.cstar ++
     [Cls.cN] ++ List.replicate 15 Cls.cstar,
   List.replicate 7 Cls.cn ++ [Cls.cA] ++ List.replicate 7 Cls.cn ++
     List.replicate 3 Cls.cA ++ List.replicate 11 Cls.cstar ++ [Cls.cn],
   List.replicate 30 Cls.cA]

/-- The `TD2` position table. -/
def fmtTD2 : List (List Cls) :=
  [[Cls.ca] ++ List.replicate 35 Cls.cA,
   List.replicate 9 Cls.cstar ++ [Cls.cn] ++ List.replicate 3 Cls.cA ++
     List.replicate 7 Cls.cn ++ [Cls.cA] ++ List.replicate 7 Cls.cn ++
     List.replicate 7 Cls.cstar ++ [Cls.cn]]

/-- The `TD3` position table. -/
def fmtTD3 : List (List Cls) :=
  [[Cls.ca] ++ List.replicate 43 Cls.cA,
   List.replicate 9 Cls.cstar ++ [Cls.cn] ++ List.replicate 3 Cls.cA ++
     List.replicate 7 Cls.cn ++ [Cls.cA] ++ List.replicate 7 Cls.cn ++
     List.replicate 14 Cls.cstar ++ List.replicate 2 Cls.cn]

/-- The `MRV` position table (shared by MRVA and MRVB). -/
def fmtMRV : List (List Cls) :=
  [[Cls.ca] ++ List.replicate 43 Cls.cA,
   List.replicate 9 Cls.cstar ++ [Cls.cn] ++ List.replicate 3 Cls.cA ++
     List.replicate 7 Cls.cn ++ [Cls.cA] ++ List.replicate 7 Cls.cn ++
     List.replicate 16 Cls.cstar]

/-- `self.FORMAT[type]`. -/
def fmtTable : Fmt → List (List Cls)
  | Fmt.TD1 => fmtTD1
  | Fmt.TD2 => fmtTD2
  | Fmt.TD3 => fmtTD3
  | Fmt.MRVA => fmtMRV
  | Fmt.MRVB => fmtMRV

/-- `self.FORMAT[type][line_idx]`; the index is always in range because the
guessed type fixes the line count, so the default is never reached. -/
def fmtLine (tp : Fmt) (i : Nat) : List Cls := (fmtTable tp).getD i []

/-- Python `str.upper()` applied to a one-character string, as used by
`_fix_char`'s `char = char.upper()`.  Python uses the Unicode full case
mapping, which is not a character-to-character map: some characters expand to
several, e.g. the sharp s 'ß' (U+00DF) upper-cases to the two-character
string "SS".  The model is exact on every ASCII character (where `upper` is
the plain a-z to A-Z map, `Char.toUpper`) and on 'ß'; the remaining non-ASCII
characters are carried through unchanged - they occur in no fixer table, and
every theorem below about the cleaner either restricts its input to ASCII or
evaluates it on 'ß' and ASCII characters only. -/
def pyUpper (c : Char) : List Char :=
  if c = 'ß' then [('S' : Char), ('S' : Char)] else [c.toUpper]

/-- `fixer.get(char, char)` applied to the upper-cased string: the fixer
tables are keyed on single characters, so a multi-character expansion such as
"SS" is never a key and passes through unchanged. -/
def clsFixS (cls : Cls) (s : List Char) : List Char :=
  match s with
  | [c] => [clsFix cls c]
  | s => s

/-- `MRZOCRCleaner._fix_line`: every original position covered by the format
string is upper-cased and passed through the class fixer (`_fix_char` with
`char_idx < len(fmt)`); the remaining positions are left untouched; the
per-position result strings are concatenated (`''.join(ln)`), so a
multi-character upper-case expansion lengthens the line. -/
def fixLine : List Cls → List Char → List Char
  | _, [] => []
  | [], rest => rest
  | cls :: fs, c :: rest => clsFixS cls (pyUpper c) ++ fixLine fs rest

/-- Fix each line with the table row of its index (`_fix_line(lines[i], tp, i)`). -/
def fixLines (tp : Fmt) : Nat → List (List Char) → List (List Char)
  | _, [] => []
  | i, l :: ls => fixLine (fmtLine tp i) l :: fixLines tp (i + 1) ls

/-- Does the line contain the two-character sequence `<<`
(Python `'<<' in ln`)? -/
def hasLtLt : List Char → Bool
  | [] => false
  | [_] => false
  | a :: b :: r => (a = '<' && b = '<') || hasLtLt (b :: r)

/-- The filter of `MRZOCRCleaner._split_lines`:
`len(ln) >= 20 or '<<' in ln`. -/
def keepLine (l : List Char) : Bool := 20 ≤ l.length || hasLtLt l

/-- `str.split('\n')`: split into lines at newline characters (an empty string
yields one empty line, as in Python). -/
def splitNL (s : List Char) : List (List Char) :=
  match s with
  | [] => [[]]
  | c :: rest =>
    match splitNL rest with
    | [] => [[]]
    | h :: t => if c = '\n' then [] :: h :: t else (c :: h) :: t

/-- `mrz_ocr_string.replace(' ', '')`. -/
def removeSpaces (s : List Char) : List Char := s.filter fun c => c ≠ ' '

/-- `MRZOCRCleaner._split_lines`. -/
def ocrSplitLines (s : List Char) : List (List Char) :=
  (splitNL (removeSpaces s)).filter keepLine

/-- `MRZOCRCleaner.__call__` (the function behind `MRZOCRCleaner.apply`):
split and filter the lines, guess the format, and if it is known fix every
line character by character. -/
def ocrCleanup (s : List Char) : List (List Char) :=
  let lines := ocrSplitLines s
  match guessType (lines.map PyVal.str) with
  | none => lines
  | some tp => fixLines tp 0 lines

/-- `'\n'.join(lines)`: the newline-joined cleaner output fed back into
`MRZ.from_ocr`-style processing. -/
def joinNL : List (List Char) → List Char
  | [] => []
  | [l] => l
  | l :: ls => l ++ '\n' :: joinNL ls

/-- `Char.toUpper` on ASCII codes, as a function on `Nat`. -/
def upperN (n : Nat) : Nat := if 97 ≤ n ∧ n ≤ 122 then n - 32 else n

/-- The alpha fixer on ASCII codes. -/
def aFixN (n : Nat) : Nat :=
  if n = 48 then 79 else if n = 49 then 73 else if n = 50 then 90
  else if n = 52 then 65 else if n = 53 then 83 else if n = 54 then 71
  else if n = 56 then 66 else n

/-- The numeric fixer on ASCII codes. -/
def nFixN (n : Nat) : Nat :=
  if n = 66 then 56 else if n = 67 then 48 else if n = 68 then 48
  else if n = 71 then 54 else if n = 73 then 49 else if n = 79 then 48
  else if n = 81 then 48 else if n = 83 then 53 else if n = 90 then 50
  else n

/-- The input of the C10 counterexample: a first line starting with the sharp
s 'ß' followed by 38 zeros, and a second line of 20 zeros. -/
def c10Input : List Char :=
  pystr ("ß") ++ List.replicate 38 '0' ++ '\n' :: List.replicate 20 '0'

/-- Claim C2: for every parsed document, `valid_score` equals
`floor(100 * (10*Σvalid_check_digits + Σvalid_line_lengths + Σvalid_misc + 1) / D)`
with `D = 45` for TD1 (both layouts), `44` for TD2, `54` for TD3 and `34`
for MRVA/MRVB, and `valid` holds exactly when `valid_score = 100`. -/
theorem C2_valid_score_formula :
    (∀ A B C, (parseTD1 A B C).valid_score =
        100 * (10 * (parseTD1 A B C).valid_check_digits.count true +
          (parseTD1 A B C).valid_line_lengths.count true +
          (parseTD1 A B C).valid_misc.count true + 1) / 45 ∧
      ((parseTD1 A B C).valid = true ↔ (parseTD1 A B C).valid_score = 100)) ∧
    (∀ A B C, (parseTD1Esp A B C).valid_score =
        100 * (10 * (parseTD1Esp A B C).valid_check_digits.count true +
          (parseTD1Esp A B C).valid_line_lengths.count true +
          (parseTD1Esp A B C).valid_misc.count true + 1) / 45 ∧
      ((parseTD1Esp A B C).valid = true ↔ (parseTD1Esp A B C).valid_score = 100)) ∧
    (∀ A B, (parseTD2 A B).valid_score =
        100 * (10 * (parseTD2 A B).valid_check_digits.count true +
          (parseTD2 A B).valid_line_lengths.count true +
          (parseTD2 A B).valid_misc.count true + 1) / 44 ∧
      ((parseTD2 A B).valid = true ↔ (parseTD2 A B).valid_score = 100)) ∧
    (∀ A B, (parseTD3 A B).valid_score =
        100 * (10 * (parseTD3 A B).valid_check_digits.count true +
          (parseTD3 A B).valid_line_lengths.count true +
          (parseTD3 A B).valid_misc.count true + 1) / 54 ∧
      ((parseTD3 A B).valid = true ↔ (parseTD3 A B).valid_score = 100)) ∧
    (∀ length A B, (parseMRV length A B).valid_score =
        100 * (10 * (parseMRV length A B).valid_check_digits.count true +
          (parseMRV length A B).valid_line_lengths.count true +
          (parseMRV length A B).valid_misc.count true + 1) / 34 ∧
      ((parseMRV length A B).valid = true ↔ (parseMRV length A B).valid_score = 100)) := by
  refine ⟨fun A B C => ⟨rfl, ?_⟩, fun A B C => ⟨rfl, ?_⟩, fun A B => ⟨rfl, ?_⟩,
    fun A B => ⟨rfl, ?_⟩, fun length A B => ⟨rfl, ?_⟩⟩ <;>
    exact decide_eq_true_iff

/-- Claim C8: in TD1, TD2 and TD3 the `date_of_birth` and `expiration_date`
entries of `valid_check_digits` require both the check-digit match and a
valid `YYMMDD` calendar date; in MRVA/MRVB (`parse_mrv`) only the check-digit
comparison is made. -/
theorem C8_date_validity :
    (∀ A B C, (parseTD1 A B C).valid_check_digits.getD 1 false =
        (decide (MRZCheckDigit.compute (parseTD1 A B C).date_of_birth =
          (parseTD1 A B C).check_date_of_birth) && checkDate (parseTD1 A B C).date_of_birth) ∧
      (parseTD1 A B C).valid_check_digits.getD 2 false =
        (decide (MRZCheckDigit.compute (parseTD1 A B C).expiration_date =
          (parseTD1 A B C).check_expiration_date) && checkDate (parseTD1 A B C).expiration_date)) ∧
    (∀ A B, (parseTD2 A B).valid_check_digits.getD 1 false =
        (decide (MRZCheckDigit.compute (parseTD2 A B).date_of_birth =
          (parseTD2 A B).check_date_of_birth) && checkDate (parseTD2 A B).date_of_birth) ∧
      (parseTD2 A B).valid_check_digits.getD 2 false =
        (decide (MRZCheckDigit.compute (parseTD2 A B).expiration_date =
          (parseTD2 A B).check_expiration_date) && checkDate (parseTD2 A B).expiration_date)) ∧
    (∀ A B, (parseTD3 A B).valid_check_digits.getD 1 false =
        (decide (MRZCheckDigit.compute (parseTD3 A B).date_of_birth =
          (parseTD3 A B).check_date_of_birth) && checkDate (parseTD3 A B).date_of_birth) ∧
      (parseTD3 A B).valid_check_digits.getD 2 false =
        (decide (MRZCheckDigit.compute (parseTD3 A B).expiration_date =
          (parseTD3 A B).check_expiration_date) && checkDate (parseTD3 A B).expiration_date)) ∧
    (∀ length A B, (parseMRV length A B).valid_check_digits.getD 1 false =
        decide (MRZCheckDigit.compute (parseMRV length A B).date_of_birth =
          (parseMRV length A B).check_date_of_birth) ∧
      (parseMRV length A B).valid_check_digits.getD 2 false =
        decide (MRZCheckDigit.compute (parseMRV length A B).expiration_date =
          (parseMRV length A B).check_expiration_date)) :=
  ⟨fun _ _ _ => ⟨rfl, rfl⟩, fun _ _ => ⟨rfl, rfl⟩, fun _ _ => ⟨rfl, rfl⟩,
   fun _ _ _ => ⟨rfl, rfl⟩⟩

/-- Claim C5: in `parse_td3` the unpacking of `valid_check_digits` swaps the
last two attributes - `valid_personal_number` receives entry 3 (the composite
check) and `valid_composite` receives entry 4 (the personal-number check) -
while `to_dict` reads its `valid_composite`/`valid_personal_number` keys from
entries 3 and 4 directly, so whenever the two entries differ the attribute
`valid_composite` disagrees with `to_dict()['valid_composite']`. -/
theorem C5_td3_swapped_validity (A B : List Char) :
    (parseTD3 A B).valid_personal_number = (parseTD3 A B).valid_check_digits.getD 3 false ∧
    (parseTD3 A B).valid_composite = (parseTD3 A B).valid_check_digits.getD 4 false ∧
    toDictValidComposite (parseTD3 A B) = (parseTD3 A B).valid_check_digits.getD 3 false ∧
    toDictValidPersonalNumber (parseTD3 A B) = (parseTD3 A B).valid_check_digits.getD 4 false ∧
    ((parseTD3 A B).valid_check_digits.getD 3 false ≠ (parseTD3 A B).valid_check_digits.getD 4 false →
      (parseTD3 A B).valid_composite ≠ toDictValidComposite (parseTD3 A B)) := by
  refine ⟨rfl, rfl, rfl, rfl, fun h heq => h ?_⟩
  have h4 : (parseTD3 A B).valid_composite = (parseTD3 A B).valid_check_digits.getD 4 false := rfl
  have h3 : toDictValidComposite (parseTD3 A B) = (parseTD3 A B).valid_check_digits.getD 3 false := rfl
  rw [h4, h3] at heq
  exact heq.symm

/-- Witness for C5: a TD3 passport whose composite check digit is corrupted
(entry 3 false) while the blank personal number still validates (entry 4
true); the attribute and the dictionary value then disagree. -/
theorem C5_td3_swapped_validity_witness :
    (parseTD3 (pystr ("P<POLKOWALSKA<KWIATKOWSKA<<JOANNA<<<<<<<<<<<"))
        (pystr ("AA00000000POL6002084F1412314<<<<<<<<<<<<<<<5"))).valid_composite ≠
      toDictValidComposite (parseTD3 (pystr ("P<POLKOWALSKA<KWIATKOWSKA<<JOANNA<<<<<<<<<<<"))
        (pystr ("AA00000000POL6002084F1412314<<<<<<<<<<<<<<<5"))) :=
  (C5_td3_swapped_validity (pystr ("P<POLKOWALSKA<KWIATKOWSKA<<JOANNA<<<<<<<<<<<"))
    (pystr ("AA00000000POL6002084F1412314<<<<<<<<<<<<<<<5"))).2.2.2.2 (by decide)

/-- Claim C7: the parser is selected by the substring at indices 2-5 of the
first line - `'ESP'` picks the Spanish TD1 layout, any other code, a
non-string first line, an empty line list, or a first line too short to carry
a country code picks the default parser; the Spanish layout moves `number` to
columns 15-24 (default: 5-14) while keeping the check-digit position
(column 14) and the composite-checksum entry unchanged. -/
theorem C7_country_dispatch :
    (∀ s rest, pySlice s 2 5 = pystr ("ESP") →
      selectParser (PyVal.str s :: rest) = ParserKind.esp) ∧
    (∀ s rest, pySlice s 2 5 ≠ pystr ("ESP") →
      selectParser (PyVal.str s :: rest) = ParserKind.base) ∧
    (∀ s rest, s.length < 5 → selectParser (PyVal.str s :: rest) = ParserKind.base) ∧
    (∀ n rest, selectParser (PyVal.int n :: rest) = ParserKind.base) ∧
    selectParser [] = ParserKind.base ∧
    (∀ A B C, (parseTD1Esp A B C).number = pySlice (padTD 30 A) 15 24) ∧
    (∀ A B C, (parseTD1 A B C).number = pySlice (padTD 30 A) 5 14) ∧
    (∀ A B C, (parseTD1Esp A B C).check_number = pyAt (padTD 30 A) 14) ∧
    (∀ A B C, (parseTD1Esp A B C).check_number = (parseTD1 A B C).check_number) ∧
    (∀ A B C, (parseTD1Esp A B C).valid_check_digits.getD 3 false =
      (parseTD1 A B C).valid_check_digits.getD 3 false) := by
  refine ⟨fun s rest h => by simp [selectParser, h], fun s rest h => by simp [selectParser, h],
    fun s rest h => ?_, fun n rest => rfl, rfl,
    fun A B C => rfl, fun A B C => rfl, fun A B C => rfl, fun A B C => rfl, fun A B C => rfl⟩
  have hl : (pySlice s 2 5).length ≤ 2 := by
    simp only [pySlice, List.length_drop, List.length_take]
    omega
  have hne : pySlice s 2 5 ≠ pystr ("ESP") := by
    intro he
    rw [he] at hl
    simp [pystr] at hl
  simp [selectParser, hne]

/-- Witness for C7: concrete dispatches - an `ESP` first line selects the
Spanish parser, an `AUT` line the default, a 4-character line the default. -/
theorem C7_country_dispatch_witness :
    selectParser [PyVal.str (pystr ("IDESP10000999<6"))] = ParserKind.esp ∧
    selectParser [PyVal.str (pystr ("IDAUT10000999<6"))] = ParserKind.base ∧
    selectParser [PyVal.str (pystr ("IDES"))] = ParserKind.base :=
  ⟨C7_country_dispatch.1 (pystr ("IDESP10000999<6")) [] (by decide),
   C7_country_dispatch.2.1 (pystr ("IDAUT10000999<6")) [] (by decide),
   C7_country_dispatch.2.2.1 (pystr ("IDES")) [] (by decide)⟩

/-- Claim C9 concerns the line padding.  `parse_td1`/`parse_td2`/`parse_td3`
pad exactly to the required length, but `parse_mrv` appends
`'<' * (44 - len(a))` whenever `len(a) < length`, so for MRVB
(`length = 36`) a short line is padded to 44 characters, not 36: the code
diverges from the stated behaviour at any MRVB line shorter than 36. -/
theorem C9_mrvb_padding :
    (padMRV 36 (List.replicate 20 'V')).length = 44 ∧
    (padMRV 36 (List.replicate 20 'V')).length ≠ 36 ∧
    padMRV 36 (List.replicate 36 'V') = List.replicate 36 'V' ∧
    padMRV 36 (List.replicate 40 'V') = List.replicate 40 'V' ∧
    (padMRV 44 (List.replicate 20 'V')).length = 44 ∧
    (padTD 30 (List.replicate 20 'V')).length = 30 ∧
    (padTD 36 (List.replicate 20 'V')).length = 36 ∧
    (padTD 44 (List.replicate 20 'V')).length = 44 := by
  refine ⟨?_, ?_, ?_, ?_, ?_, ?_, ?_, ?_⟩ <;> decide

/-- Every character code is at most 35 (the value of 'Z'). -/
theorem checkCode_le (c : Char) : checkCode c ≤ 35 := by
  unfold checkCode
  split_ifs <;> omega

/-- A character outside the MRZ alphabet hits the `-1000` sentinel. -/
theorem checkCode_of_invalid {c : Char} (h : ¬ isMRZChar c) : checkCode c = -1000 := by
  unfold checkCode
  unfold isMRZChar at h
  split_ifs with h1 h2 h3
  · exact absurd (Or.inl h1) h
  · exact absurd (Or.inr (Or.inl h2)) h
  · exact absurd (Or.inr (Or.inr h3)) h
  · rfl

/-- On MRZ-alphabet characters the implementation's code agrees with the
specification's character value. -/
theorem checkCode_of_valid {c : Char} (h : isMRZChar c) :
    checkCode c = (specCharValue c : Int) := by
  unfold checkCode specCharValue
  unfold isMRZChar at h
  rcases h with h | h | h
  · split_ifs
    all_goals omega
  · split_ifs
    all_goals omega
  · subst h; decide

/-- The weight cycle stays within `[1, 7]`. -/
theorem checkWeight_bounds (i : Nat) : 1 ≤ checkWeight i ∧ checkWeight i ≤ 7 := by
  unfold checkWeight
  split_ifs <;> omega

/-- Weight values at the first seven positions. -/
theorem checkWeight_vals :
    checkWeight 0 = 7 ∧ checkWeight 1 = 3 ∧ checkWeight 2 = 1 ∧ checkWeight 3 = 7 ∧
    checkWeight 4 = 3 ∧ checkWeight 5 = 1 ∧ checkWeight 6 = 7 := by
  refine ⟨rfl, rfl, rfl, rfl, rfl, rfl, rfl⟩

/-- On all-valid text the implementation's `Int` sum is the specification's
`Nat` sum. -/
theorem checkSumFrom_eq_specSumFrom (s : List Char) :
    ∀ i, (∀ c ∈ s, isMRZChar c) → checkSumFrom i s = (specSumFrom i s : Int) := by
  induction s with
  | nil => intro i _; rfl
  | cons c rest ih =>
    intro i h
    have hc := checkCode_of_valid (h c (List.mem_cons_self c rest))
    have hrest := ih (i + 1) fun x hx => h x (List.mem_cons_of_mem c hx)
    have hw : ((checkWeight i).toNat : Int) = checkWeight i := by
      have := (checkWeight_bounds i).1
      omega
    rw [checkSumFrom, specSumFrom, hc, hrest]
    push_cast
    rw [hw]

/-- Weight values at each small index, for expanding short sums. -/
theorem checkWeight_zero : checkWeight 0 = 7 := rfl

theorem checkWeight_one : checkWeight 1 = 3 := rfl

theorem checkWeight_two : checkWeight 2 = 1 := rfl

theorem checkWeight_three : checkWeight 3 = 7 := rfl

theorem checkWeight_four : checkWeight 4 = 3 := rfl

theorem checkWeight_five : checkWeight 5 = 1 := rfl

theorem checkWeight_six : checkWeight 6 = 7 := rfl

/-- In a string of at most 7 characters, a single `-1000` sentinel cannot be
offset by the other weighted contributions (whose weights sum to at most 28
when one cycle position is lost), so the weighted sum is negative. -/
theorem checkSum_neg_of_short_invalid (s : List Char) (hlen : s.length ≤ 7)
    (c : Char) (hc : c ∈ s) (hinv : ¬ isMRZChar c) : checkSum s < 0 := by
  have hcode := checkCode_of_invalid hinv
  rcases s with _ | ⟨a0, _ | ⟨a1, _ | ⟨a2, _ | ⟨a3, _ | ⟨a4, _ | ⟨a5, _ | ⟨a6, t⟩⟩⟩⟩⟩⟩⟩
  · cases hc
  · have b0 := checkCode_le a0
    simp only [List.mem_cons, List.not_mem_nil, or_false] at hc
    simp [checkSum, checkSumFrom, checkWeight_zero]
    subst hc
    omega
  · have b0 := checkCode_le a0
    have b1 := checkCode_le a1
    simp only [List.mem_cons, List.not_mem_nil, or_false] at hc
    simp [checkSum, checkSumFrom, checkWeight_zero, checkWeight_one]
    rcases hc with rfl | rfl <;> omega
  · have b0 := checkCode_le a0
    have b1 := checkCode_le a1
    have b2 := checkCode_le a2
    simp only [List.mem_cons, List.not_mem_nil, or_false] at hc
    simp [checkSum, checkSumFrom, checkWeight_zero, checkWeight_one, checkWeight_two]
    rcases hc with rfl | rfl | rfl <;> omega
  · have b0 := checkCode_le a0
    have b1 := checkCode_le a1
    have b2 := checkCode_le a2
    have b3 := checkCode_le a3
    simp only [List.mem_cons, List.not_mem_nil, or_false] at hc
    simp [checkSum, checkSumFrom, checkWeight_zero, checkWeight_one, checkWeight_two,
      checkWeight_three]
    rcases hc with rfl | rfl | rfl | rfl <;> omega
  · have b0 := checkCode_le a0
    have b1 := checkCode_le a1
    have b2 := checkCode_le a2
    have b3 := checkCode_le a3
    have b4 := checkCode_le a4
    simp only [List.mem_cons, List.not_mem_nil, or_false] at hc
    simp [checkSum, checkSumFrom, checkWeight_zero, checkWeight_one, checkWeight_two,
      checkWeight_three, checkWeight_four]
    rcases hc with rfl | rfl | rfl | rfl | rfl <;> omega
  · have b0 := checkCode_le a0
    have b1 := checkCode_le a1
    have b2 := checkCode_le a2
    have b3 := checkCode_le a3
    have b4 := checkCode_le a4
    have b5 := checkCode_le a5
    simp only [List.mem_cons, List.not_mem_nil, or_false] at hc
    simp [checkSum, checkSumFrom, checkWeight_zero, checkWeight_one, checkWeight_two,
      checkWeight_three, checkWeight_four, checkWeight_five]
    rcases hc with rfl | rfl | rfl | rfl | rfl | rfl <;> omega
  · have ht : t = [] := by
      simp only [List.length_cons] at hlen
      exact List.length_eq_zero.mp (by omega)
    subst ht
    have b0 := checkCode_le a0
    have b1 := checkCode_le a1
    have b2 := checkCode_le a2
    have b3 := checkCode_le a3
    have b4 := checkCode_le a4
    have b5 := checkCode_le a5
    have b6 := checkCode_le a6
    simp only [List.mem_cons, List.not_mem_nil, or_false] at hc
    simp [checkSum, checkSumFrom, checkWeight_zero, checkWeight_one, checkWeight_two,
      checkWeight_three, checkWeight_four, checkWeight_five, checkWeight_six]
    rcases hc with rfl | rfl | rfl | rfl | rfl | rfl | rfl <;> omega

/-- Claim C1 as stated is false: `'ZZzZZZZZ'` contains the lowercase letter
`'z'` (outside the MRZ alphabet), yet the check-digit function returns the
digit `'5'` rather than the empty string - the eight valid-character
contributions outweigh the single `-1000` sentinel. -/
theorem C1_counterexample :
    'z' ∈ pystr ("ZZzZZZZZ") ∧ ¬ isMRZChar 'z' ∧
    MRZCheckDigit.compute (pystr ("ZZzZZZZZ")) = pystr ("5") ∧
    MRZCheckDigit.compute (pystr ("ZZzZZZZZ")) ≠ pystr ("") := by
  refine ⟨?_, ?_, ?_, ?_⟩ <;> decide

/-- Claim C1, amended: the check-digit function returns the empty string
exactly when the input is empty or the weighted sum (with the `-1000`
sentinel per invalid character) is negative; in particular every string of at
most 7 characters containing a character outside the MRZ alphabet returns the
empty string, while longer strings can offset the sentinel. -/
theorem C1_amended (s : List Char) :
    (MRZCheckDigit.compute s = [] ↔ s = [] ∨ checkSum s < 0) ∧
    ((∃ c ∈ s, ¬ isMRZChar c) → s.length ≤ 7 → MRZCheckDigit.compute s = []) := by
  constructor
  · constructor
    · intro h
      by_cases hs : s = []
      · exact Or.inl hs
      · by_cases hlt : checkSum s < 0
        · exact Or.inr hlt
        · exfalso
          simp [MRZCheckDigit.compute, hs, hlt] at h
    · rintro (rfl | hlt)
      · rfl
      · by_cases hs : s = []
        · subst hs; rfl
        · simp [MRZCheckDigit.compute, hs, hlt]
  · rintro ⟨c, hc, hinv⟩ hlen
    have hneg := checkSum_neg_of_short_invalid s hlen c hc hinv
    have hs : s ≠ [] := by
      rintro rfl
      cases hc
    simp [MRZCheckDigit.compute, hs, hneg]

/-- Witness for the amended C1: the doctest string `'0 0'` contains a space
(invalid) and has 3 ≤ 7 characters, so the check digit is empty. -/
theorem C1_amended_witness : MRZCheckDigit.compute (pystr ("0 0")) = [] :=
  (C1_amended (pystr ("0 0"))).2 (by decide) (by decide)

/-- Claim C3: on non-empty strings over the MRZ alphabet the check-digit
function returns the decimal digit of the weighted sum modulo 10 (weights
cycling 7,3,1; values 0-9 for digits, 10-35 for letters, 0 for the filler),
and the examples `checkDigit('') = ''`, `checkDigit('0') = '0'`,
`checkDigit('111111111') = '3'` hold. -/
theorem C3_check_digit_algorithm :
    (∀ s : List Char, s ≠ [] → (∀ c ∈ s, isMRZChar c) →
      MRZCheckDigit.compute s = [Nat.digitChar (specSum s % 10)]) ∧
    MRZCheckDigit.compute (pystr ("")) = pystr ("") ∧
    MRZCheckDigit.compute (pystr ("0")) = pystr ("0") ∧
    MRZCheckDigit.compute (pystr ("111111111")) = pystr ("3") := by
  refine ⟨fun s hs hval => ?_, by decide, by decide, by decide⟩
  have heq : checkSum s = (specSum s : Int) := checkSumFrom_eq_specSumFrom s 0 hval
  have hnonneg : ¬ checkSum s < 0 := by
    rw [heq]
    exact not_lt.mpr (Int.natCast_nonneg _)
  have hmod : ((checkSum s % 10).toNat) = specSum s % 10 := by
    rw [heq]
    omega
  simp [MRZCheckDigit.compute, hs, hnonneg, hmod]

/-- Witness for C3: the all-valid string `'AB'` (values 10, 11; weights 7, 3)
has weighted sum 103, so the check digit is `'3'`. -/
theorem C3_check_digit_algorithm_witness :
    MRZCheckDigit.compute (pystr ("AB")) = [Nat.digitChar (specSum (pystr ("AB")) % 10)] ∧
    specSum (pystr ("AB")) = 103 :=
  ⟨C3_check_digit_algorithm.1 (pystr ("AB")) (by decide) (by decide), by decide⟩

/-- Claim C4: the format guesser returns TD1 for any 3-element input; for two
string lines both shorter than 40 it returns MRVB when the first character is
`V`/`v` and TD2 otherwise; for two string lines not both shorter than 40 it
returns MRVA/TD3 by the same test; and any other element count, a failing
length query (non-string where `len` is evaluated) or failing indexing (empty
first line) yields `None` without raising. -/
theorem C4_guess_type :
    (∀ lines : List PyVal, lines.length = 3 → guessType lines = some Fmt.TD1) ∧
    (∀ (c : Char) (r s1 : List Char), (c :: r).length < 40 → s1.length < 40 →
      guessType [PyVal.str (c :: r), PyVal.str s1] =
        some (if c.toUpper = 'V' then Fmt.MRVB else Fmt.TD2)) ∧
    (∀ (c : Char) (r s1 : List Char), ¬((c :: r).length < 40 ∧ s1.length < 40) →
      guessType [PyVal.str (c :: r), PyVal.str s1] =
        some (if c.toUpper = 'V' then Fmt.MRVA else Fmt.TD3)) ∧
    (∀ lines : List PyVal, lines.length ≠ 2 → lines.length ≠ 3 → guessType lines = none) ∧
    (∀ (n : Int) (v : PyVal), guessType [PyVal.int n, v] = none) ∧
    (∀ (s0 : List Char) (n : Int), s0.length < 40 →
      guessType [PyVal.str s0, PyVal.int n] = none) ∧
    (∀ s1 : List Char, guessType [PyVal.str [], PyVal.str s1] = none) := by
  refine ⟨?_, ?_, ?_, ?_, ?_, ?_, ?_⟩
  · intro lines h
    rcases lines with _ | ⟨a, _ | ⟨b, _ | ⟨c, _ | ⟨d, t⟩⟩⟩⟩ <;> simp_all [guessType]
  · intro c r s1 h0 h1
    have h0' : r.length + 1 < 40 := by simpa using h0
    simp [guessType, pyLen, h0', h1, vBranch, pyIndex]
  · intro c r s1 h
    by_cases h0 : (c :: r).length < 40
    · have h1 : ¬ s1.length < 40 := fun hx => h ⟨h0, hx⟩
      have h0' : r.length + 1 < 40 := by simpa using h0
      simp [guessType, pyLen, h0', h1, vBranch, pyIndex]
    · have h0' : ¬ (r.length + 1 < 40) := by simpa using h0
      simp [guessType, pyLen, h0', vBranch, pyIndex]
  · intro lines h2 h3
    rcases lines with _ | ⟨a, _ | ⟨b, _ | ⟨c, _ | ⟨d, t⟩⟩⟩⟩ <;> simp_all [guessType]
  · intro n v
    simp [guessType, pyLen]
  · intro s0 n h
    simp [guessType, pyLen, h]
  · intro s1
    by_cases h1 : s1.length < 40 <;> simp [guessType, pyLen, h1, vBranch, pyIndex]

/-- Witness for C4: the doctest inputs - three integers give TD1, two short
lines starting with `V` give MRVB, two 40-character lines give TD3, two
integers give `None`. -/
theorem C4_guess_type_witness :
    guessType [PyVal.int 1, PyVal.int 2, PyVal.int 3] = some Fmt.TD1 ∧
    guessType [PyVal.str (pystr ("Vab")), PyVal.str (pystr ("b"))] = some Fmt.MRVB ∧
    guessType [PyVal.str (List.replicate 40 '*'), PyVal.str (List.replicate 40 '*')] =
      some Fmt.TD3 ∧
    guessType [PyVal.int 1, PyVal.int 2] = none :=
  ⟨C4_guess_type.1 [PyVal.int 1, PyVal.int 2, PyVal.int 3] (by decide),
   by
     have h := C4_guess_type.2.1 'V' (pystr ("ab")) (pystr ("b")) (by decide) (by decide)
     simpa using h,
   by
     have h := C4_guess_type.2.2.1 '*' (List.replicate 39 '*') (List.replicate 40 '*')
       (by simp)
     simpa using h,
   C4_guess_type.2.2.2.2.1 1 (PyVal.int 2)⟩

/-- Claim C6: constructing an `MRZ` never propagates an exception - when
classification returns `Unknown` the result keeps `mrz_type = None` with
`valid = False` and `valid_score = 0`, and whenever the final `mrz_type` is
`None` (unknown classification or an exception during parsing) the result is
the same degraded, fully-formed record. -/
theorem C6_graceful_degradation (lines : List PyVal) :
    (guessType lines = none →
      mrzParse lines = { mrz_type := none, valid := false, valid_score := 0 }) ∧
    ((mrzParse lines).mrz_type = none →
      (mrzParse lines).valid = false ∧ (mrzParse lines).valid_score = 0) := by
  constructor
  · intro h
    simp [mrzParse, h]
  · intro h
    rcases hg : guessType lines with _ | fmt
    · simp [mrzParse, hg]
    · rcases fmt
      case TD1 =>
        rcases h3 : asThreeStrs lines with _ | ⟨⟨a, b, c⟩⟩
        · simp [mrzParse, hg, h3, degradedResult]
        · simp [mrzParse, hg, h3] at h
      all_goals
        rcases h2 : asTwoStrs lines with _ | ⟨⟨a, b⟩⟩
        · simp [mrzParse, hg, h2, degradedResult]
        · simp [mrzParse, hg, h2] at h

/-- Witness for C6: the empty input is unclassifiable and collapses to the
degraded result. -/
theorem C6_graceful_degradation_witness :
    mrzParse [] = { mrz_type := none, valid := false, valid_score := 0 } ∧
    (mrzParse [PyVal.int 1, PyVal.int 2, PyVal.int 3]).valid = false ∧
    (mrzParse [PyVal.int 1, PyVal.int 2, PyVal.int 3]).valid_score = 0 :=
  ⟨(C6_graceful_degradation []).1 (by decide),
   (C6_graceful_degradation [PyVal.int 1, PyVal.int 2, PyVal.int 3]).2 (by decide)⟩

theorem char_toNat_inj {a b : Char} (h : a.toNat = b.toNat) : a = b :=
  Char.ext (UInt32.ext h)

theorem charEq_iff_toNat {a b : Char} : a = b ↔ a.toNat = b.toNat :=
  ⟨congrArg Char.toNat, char_toNat_inj⟩

theorem toUpper_toNat (c : Char) : (Char.toUpper c).toNat = upperN c.toNat := by
  unfold Char.toUpper upperN
  split
  case isTrue h =>
    have hv : Nat.isValidChar (c.toNat - 32) := Or.inl (by omega)
    rw [if_pos (by omega)]
    simp only [Char.ofNat, dif_pos hv]
    rfl
  case isFalse h =>
    rw [if_neg (by omega)]

theorem aFix_toNat (c : Char) : (aFix c).toNat = aFixN c.toNat := by
  unfold aFix
  split
  · decide
  · decide
  · decide
  · decide
  · decide
  · decide
  · decide
  next h0 h1 h2 h3 h4 h5 h6 =>
    have n0 : c.toNat ≠ 48 := fun h => h0 (char_toNat_inj h)
    have n1 : c.toNat ≠ 49 := fun h => h1 (char_toNat_inj h)
    have n2 : c.toNat ≠ 50 := fun h => h2 (char_toNat_inj h)
    have n3 : c.toNat ≠ 52 := fun h => h3 (char_toNat_inj h)
    have n4 : c.toNat ≠ 53 := fun h => h4 (char_toNat_inj h)
    have n5 : c.toNat ≠ 54 := fun h => h5 (char_toNat_inj h)
    have n6 : c.toNat ≠ 56 := fun h => h6 (char_toNat_inj h)
    unfold aFixN
    split_ifs
    all_goals omega

theorem nFix_toNat (c : Char) : (nFix c).toNat = nFixN c.toNat := by
  unfold nFix
  split
  · decide
  · decide
  · decide
  · decide
  · decide
  · decide
  · decide
  · decide
  · decide
  next h0 h1 h2 h3 h4 h5 h6 h7 h8 =>
    have n0 : c.toNat ≠ 66 := fun h => h0 (char_toNat_inj h)
    have n1 : c.toNat ≠ 67 := fun h => h1 (char_toNat_inj h)
    have n2 : c.toNat ≠ 68 := fun h => h2 (char_toNat_inj h)
    have n3 : c.toNat ≠ 71 := fun h => h3 (char_toNat_inj h)
    have n4 : c.toNat ≠ 73 := fun h => h4 (char_toNat_inj h)
    have n5 : c.toNat ≠ 79 := fun h => h5 (char_toNat_inj h)
    have n6 : c.toNat ≠ 81 := fun h => h6 (char_toNat_inj h)
    have n7 : c.toNat ≠ 83 := fun h => h7 (char_toNat_inj h)
    have n8 : c.toNat ≠ 90 := fun h => h8 (char_toNat_inj h)
    unfold nFixN
    split_ifs
    all_goals omega

theorem upperN_idem (n : Nat) : upperN (upperN n) = upperN n := by
  unfold upperN
  split_ifs <;> omega

theorem upperN_not_lower (n : Nat) : ¬(97 ≤ upperN n ∧ upperN n ≤ 122) := by
  unfold upperN
  split_ifs <;> omega

theorem aFixN_cases (m : Nat) :
    aFixN m = m ∨ aFixN m = 79 ∨ aFixN m = 73 ∨ aFixN m = 90 ∨ aFixN m = 65 ∨
      aFixN m = 83 ∨ aFixN m = 71 ∨ aFixN m = 66 := by
  unfold aFixN
  split_ifs <;> omega

theorem nFixN_cases (m : Nat) :
    nFixN m = m ∨ nFixN m = 56 ∨ nFixN m = 48 ∨ nFixN m = 54 ∨ nFixN m = 49 ∨
      nFixN m = 53 ∨ nFixN m = 50 := by
  unfold nFixN
  split_ifs <;> omega

theorem aFixN_upperN_idem (n : Nat) : aFixN (upperN (aFixN (upperN n))) = aFixN (upperN n) := by
  have hfix : upperN (upperN n) = upperN n := upperN_idem n
  rcases aFixN_cases (upperN n) with h | h | h | h | h | h | h | h <;> rw [h]
  · rw [hfix, h]
  · decide
  · decide
  · decide
  · decide
  · decide
  · decide
  · decide

theorem nFixN_upperN_idem (n : Nat) : nFixN (upperN (nFixN (upperN n))) = nFixN (upperN n) := by
  have hfix : upperN (upperN n) = upperN n := upperN_idem n
  rcases nFixN_cases (upperN n) with h | h | h | h | h | h | h <;> rw [h]
  · rw [hfix, h]
  · decide
  · decide
  · decide
  · decide
  · decide
  · decide

theorem upperN_eq_low {t : Nat} (ht : t < 65) (m : Nat) : upperN m = t ↔ m = t := by
  unfold upperN
  split_ifs <;> omega

theorem aFixN_eq_low {t : Nat} (ht : t < 65) (h48 : t ≠ 48) (h49 : t ≠ 49) (h50 : t ≠ 50)
    (h52 : t ≠ 52) (h53 : t ≠ 53) (h54 : t ≠ 54) (h56 : t ≠ 56) (m : Nat) :
    aFixN m = t ↔ m = t := by
  unfold aFixN
  split_ifs <;> omega

theorem nFixN_eq_low {t : Nat} (ht : t < 65) (h48 : t ≠ 48) (h49 : t ≠ 49) (h50 : t ≠ 50)
    (h52 : t ≠ 52) (h53 : t ≠ 53) (h54 : t ≠ 54) (h56 : t ≠ 56) (m : Nat) :
    nFixN m = t ↔ m = t := by
  unfold nFixN
  split_ifs <;> omega

theorem upperN_eq_86 (m : Nat) : upperN m = 86 ↔ (m = 86 ∨ m = 118) := by
  unfold upperN
  split_ifs <;> omega

theorem aFixN_eq_86 (m : Nat) : aFixN m = 86 ↔ m = 86 := by
  unfold aFixN
  split_ifs <;> omega

theorem aFixN_eq_118 (m : Nat) : aFixN m = 118 ↔ m = 118 := by
  unfold aFixN
  split_ifs <;> omega

theorem upperN_aFixN_V (n : Nat) :
    upperN (aFixN (upperN n)) = 86 ↔ upperN n = 86 := by
  have hnl := upperN_not_lower n
  rw [upperN_eq_86, aFixN_eq_86, aFixN_eq_118]
  constructor
  · rintro (h | h)
    · exact h
    · omega
  · exact Or.inl

theorem fixChar_idem (cls : Cls) (c : Char) :
    clsFix cls (clsFix cls c.toUpper).toUpper = clsFix cls c.toUpper := by
  apply char_toNat_inj
  cases cls
  case ca =>
    simp only [clsFix, aFix_toNat, toUpper_toNat]
    exact aFixN_upperN_idem c.toNat
  case cA =>
    simp only [clsFix, aFix_toNat, toUpper_toNat]
    exact aFixN_upperN_idem c.toNat
  case cn =>
    simp only [clsFix, nFix_toNat, toUpper_toNat]
    exact nFixN_upperN_idem c.toNat
  case cN =>
    simp only [clsFix, nFix_toNat, toUpper_toNat]
    exact nFixN_upperN_idem c.toNat
  case cstar =>
    simp only [clsFix, toUpper_toNat]
    exact upperN_idem c.toNat

theorem fixChar_eq_mark (cls : Cls) {t : Char} (ht : t.toNat < 65) (h48 : t.toNat ≠ 48)
    (h49 : t.toNat ≠ 49) (h50 : t.toNat ≠ 50) (h52 : t.toNat ≠ 52) (h53 : t.toNat ≠ 53)
    (h54 : t.toNat ≠ 54) (h56 : t.toNat ≠ 56) (c : Char) :
    clsFix cls c.toUpper = t ↔ c = t := by
  rw [charEq_iff_toNat, charEq_iff_toNat]
  cases cls
  case ca =>
    simp only [clsFix, aFix_toNat, toUpper_toNat]
    rw [aFixN_eq_low ht h48 h49 h50 h52 h53 h54 h56, upperN_eq_low ht]
  case cA =>
    simp only [clsFix, aFix_toNat, toUpper_toNat]
    rw [aFixN_eq_low ht h48 h49 h50 h52 h53 h54 h56, upperN_eq_low ht]
  case cn =>
    simp only [clsFix, nFix_toNat, toUpper_toNat]
    rw [nFixN_eq_low ht h48 h49 h50 h52 h53 h54 h56, upperN_eq_low ht]
  case cN =>
    simp only [clsFix, nFix_toNat, toUpper_toNat]
    rw [nFixN_eq_low ht h48 h49 h50 h52 h53 h54 h56, upperN_eq_low ht]
  case cstar =>
    simp only [clsFix, toUpper_toNat]
    rw [upperN_eq_low ht]

theorem fixChar_V (c : Char) :
    (clsFix Cls.ca c.toUpper).toUpper = 'V' ↔ c.toUpper = 'V' := by
  rw [charEq_iff_toNat, charEq_iff_toNat]
  have hV : ('V').toNat = 86 := rfl
  simp only [clsFix, aFix_toNat, toUpper_toNat, hV]
  exact upperN_aFixN_V c.toNat

theorem pyUpper_ascii (c : Char) (h : c.toNat < 128) : pyUpper c = [c.toUpper] := by
  unfold pyUpper
  rw [if_neg]
  intro he
  rw [he] at h
  exact absurd h (by decide)

theorem fixLine_nil (fmt : List Cls) : fixLine fmt [] = [] := by
  cases fmt <;> rfl

theorem fixLine_nil_fmt (l : List Char) : fixLine [] l = l := by
  cases l <;> rfl

/-- On an ASCII character the fixer step is the single-character map. -/
theorem fixLine_cons_ascii (cls : Cls) (fs : List Cls) (c : Char) (rest : List Char)
    (hc : c.toNat < 128) :
    fixLine (cls :: fs) (c :: rest) = clsFix cls c.toUpper :: fixLine fs rest := by
  show clsFixS cls (pyUpper c) ++ fixLine fs rest = _
  rw [pyUpper_ascii c hc]
  rfl

/-- Upper-casing never increases an ASCII code. -/
theorem upperN_le (n : Nat) : upperN n ≤ n := by
  unfold upperN
  split_ifs <;> omega

theorem aFixN_lt128 (m : Nat) (h : m < 128) : aFixN m < 128 := by
  rcases aFixN_cases m with h' | h' | h' | h' | h' | h' | h' | h' <;> omega

theorem nFixN_lt128 (m : Nat) (h : m < 128) : nFixN m < 128 := by
  rcases nFixN_cases m with h' | h' | h' | h' | h' | h' | h' <;> omega

/-- The fixer keeps ASCII characters ASCII. -/
theorem clsFix_toUpper_lt128 (cls : Cls) (c : Char) (h : c.toNat < 128) :
    (clsFix cls c.toUpper).toNat < 128 := by
  have hup : upperN c.toNat < 128 := Nat.lt_of_le_of_lt (upperN_le c.toNat) h
  cases cls
  case ca =>
    simp only [clsFix, aFix_toNat, toUpper_toNat]
    exact aFixN_lt128 _ hup
  case cA =>
    simp only [clsFix, aFix_toNat, toUpper_toNat]
    exact aFixN_lt128 _ hup
  case cn =>
    simp only [clsFix, nFix_toNat, toUpper_toNat]
    exact nFixN_lt128 _ hup
  case cN =>
    simp only [clsFix, nFix_toNat, toUpper_toNat]
    exact nFixN_lt128 _ hup
  case cstar =>
    simp only [clsFix, toUpper_toNat]
    exact hup

theorem fixLine_length (fmt : List Cls) (l : List Char) (hl : ∀ c ∈ l, c.toNat < 128) :
    (fixLine fmt l).length = l.length := by
  induction l generalizing fmt with
  | nil => rw [fixLine_nil]
  | cons c rest ih =>
    cases fmt with
    | nil => rfl
    | cons cls fs =>
      rw [fixLine_cons_ascii cls fs c rest (hl c (List.mem_cons_self c rest))]
      simp [ih fs (fun y hy => hl y (List.mem_cons_of_mem c hy))]

theorem fixLine_ascii (fmt : List Cls) (l : List Char) (hl : ∀ c ∈ l, c.toNat < 128) :
    ∀ x ∈ fixLine fmt l, x.toNat < 128 := by
  induction l generalizing fmt with
  | nil => rw [fixLine_nil]; exact hl
  | cons c rest ih =>
    cases fmt with
    | nil => rw [fixLine_nil_fmt]; exact hl
    | cons cls fs =>
      rw [fixLine_cons_ascii cls fs c rest (hl c (List.mem_cons_self c rest))]
      intro x hx
      rcases List.mem_cons.mp hx with rfl | hx'
      · exact clsFix_toUpper_lt128 cls c (hl c (List.mem_cons_self c rest))
      · exact ih fs (fun y hy => hl y (List.mem_cons_of_mem c hy)) x hx'

theorem fixLine_idem (fmt : List Cls) (l : List Char) (hl : ∀ c ∈ l, c.toNat < 128) :
    fixLine fmt (fixLine fmt l) = fixLine fmt l := by
  induction l generalizing fmt with
  | nil => rw [fixLine_nil, fixLine_nil]
  | cons c rest ih =>
    have hc : c.toNat < 128 := hl c (List.mem_cons_self c rest)
    have hrest : ∀ y ∈ rest, y.toNat < 128 := fun y hy => hl y (List.mem_cons_of_mem c hy)
    cases fmt with
    | nil => rw [fixLine_nil_fmt, fixLine_nil_fmt]
    | cons cls fs =>
      rw [fixLine_cons_ascii cls fs c rest hc,
        fixLine_cons_ascii cls fs _ _ (clsFix_toUpper_lt128 cls c hc),
        fixChar_idem, ih fs hrest]

theorem fixLine_no_mark {t : Char} (ht : t.toNat < 65) (h48 : t.toNat ≠ 48)
    (h49 : t.toNat ≠ 49) (h50 : t.toNat ≠ 50) (h52 : t.toNat ≠ 52) (h53 : t.toNat ≠ 53)
    (h54 : t.toNat ≠ 54) (h56 : t.toNat ≠ 56) (fmt : List Cls) (l : List Char)
    (ha : ∀ c ∈ l, c.toNat < 128)
    (hl : ∀ c ∈ l, c ≠ t) : ∀ c ∈ fixLine fmt l, c ≠ t := by
  induction l generalizing fmt with
  | nil => rw [fixLine_nil]; exact hl
  | cons c rest ih =>
    cases fmt with
    | nil => rw [fixLine_nil_fmt]; exact hl
    | cons cls fs =>
      rw [fixLine_cons_ascii cls fs c rest (ha c (List.mem_cons_self c rest))]
      intro x hx
      rcases List.mem_cons.mp hx with rfl | hx'
      · intro he
        exact hl c (List.mem_cons_self c rest)
          ((fixChar_eq_mark cls ht h48 h49 h50 h52 h53 h54 h56 c).mp he)
      · exact ih fs (fun y hy => ha y (List.mem_cons_of_mem c hy))
          (fun y hy => hl y (List.mem_cons_of_mem c hy)) x hx'

theorem fixLine_hasLtLt (fmt : List Cls) (l : List Char) (hasc : ∀ c ∈ l, c.toNat < 128) :
    hasLtLt (fixLine fmt l) = hasLtLt l := by
  have hlt : ('<').toNat = 60 := rfl
  induction l generalizing fmt with
  | nil => rw [fixLine_nil]
  | cons a tl ih =>
    have haa : a.toNat < 128 := hasc a (List.mem_cons_self a tl)
    have htl : ∀ y ∈ tl, y.toNat < 128 := fun y hy => hasc y (List.mem_cons_of_mem a hy)
    cases tl with
    | nil =>
      cases fmt with
      | nil => rfl
      | cons cls fs =>
        rw [fixLine_cons_ascii cls fs a [] haa, fixLine_nil]
        rfl
    | cons b r =>
      have hbb : b.toNat < 128 := htl b (List.mem_cons_self b r)
      cases fmt with
      | nil => rw [fixLine_nil_fmt]
      | cons cls fs =>
        have hA : (clsFix cls a.toUpper = '<') = (a = '<') :=
          propext (fixChar_eq_mark cls (by omega) (by omega) (by omega) (by omega) (by omega)
            (by omega) (by omega) (by omega) a)
        rw [fixLine_cons_ascii cls fs a (b :: r) haa]
        cases fs with
        | nil =>
          rw [fixLine_nil_fmt]
          simp only [hasLtLt, hA]
        | cons cls' fs' =>
          have hB : (clsFix cls' b.toUpper = '<') = (b = '<') :=
            propext (fixChar_eq_mark cls' (by omega) (by omega) (by omega) (by omega) (by omega)
              (by omega) (by omega) (by omega) b)
          have htail := ih (cls' :: fs') htl
          rw [fixLine_cons_ascii cls' fs' b r hbb] at htail
          rw [fixLine_cons_ascii cls' fs' b r hbb]
          simp only [hasLtLt, hA, hB, htail]

theorem keepLine_fixLine (fmt : List Cls) (l : List Char) (hl : ∀ c ∈ l, c.toNat < 128) :
    keepLine (fixLine fmt l) = keepLine l := by
  unfold keepLine
  rw [fixLine_length fmt l hl, fixLine_hasLtLt fmt l hl]

theorem splitNL_cons (c : Char) (rest : List Char) :
    splitNL (c :: rest) =
      match splitNL rest with
      | [] => [[]]
      | h :: t => if c = '\n' then [] :: h :: t else (c :: h) :: t := rfl

theorem splitNL_ne_nil (s : List Char) : splitNL s ≠ [] := by
  cases s with
  | nil => simp [splitNL]
  | cons c rest =>
    rw [splitNL_cons]
    cases splitNL rest with
    | nil => simp
    | cons h t => by_cases hc : c = '\n' <;> simp [hc]

theorem splitNL_no_newline (s : List Char) : ∀ l ∈ splitNL s, '\n' ∉ l := by
  induction s with
  | nil =>
    intro l hl
    simp [splitNL] at hl
    simp [hl]
  | cons c rest ih =>
    intro l hl
    rw [splitNL_cons] at hl
    rcases hh : splitNL rest with _ | ⟨h, t⟩
    · exact absurd hh (splitNL_ne_nil rest)
    · rw [hh] at hl
      dsimp only at hl
      by_cases hnl : c = '\n'
      · rw [if_pos hnl] at hl
        rcases List.mem_cons.mp hl with rfl | hl'
        · simp
        · exact ih l (by rw [hh]; exact hl')
      · rw [if_neg hnl] at hl
        rcases List.mem_cons.mp hl with rfl | hl'
        · intro hmem
          rcases List.mem_cons.mp hmem with rfl | hmem'
          · exact hnl rfl
          · exact ih h (by rw [hh]; exact List.mem_cons_self h t) hmem'
        · exact ih l (by rw [hh]; exact List.mem_cons_of_mem h hl')

theorem splitNL_chars {p : Char → Prop} (s : List Char) (hs : ∀ c ∈ s, p c) :
    ∀ l ∈ splitNL s, ∀ c ∈ l, p c := by
  induction s with
  | nil =>
    intro l hl
    simp [splitNL] at hl
    simp [hl]
  | cons c rest ih =>
    intro l hl
    have hrest : ∀ x ∈ rest, p x := fun x hx => hs x (List.mem_cons_of_mem c hx)
    have hc : p c := hs c (List.mem_cons_self c rest)
    rw [splitNL_cons] at hl
    rcases hh : splitNL rest with _ | ⟨h, t⟩
    · exact absurd hh (splitNL_ne_nil rest)
    · rw [hh] at hl
      dsimp only at hl
      by_cases hnl : c = '\n'
      · rw [if_pos hnl] at hl
        rcases List.mem_cons.mp hl with rfl | hl'
        · simp
        · exact ih hrest l (by rw [hh]; exact hl')
      · rw [if_neg hnl] at hl
        rcases List.mem_cons.mp hl with rfl | hl'
        · intro x hx
          rcases List.mem_cons.mp hx with rfl | hx'
          · exact hc
          · exact ih hrest h (by rw [hh]; exact List.mem_cons_self h t) x hx'
        · exact ih hrest l (by rw [hh]; exact List.mem_cons_of_mem h hl')

theorem splitNL_single (l : List Char) (h : '\n' ∉ l) : splitNL l = [l] := by
  induction l with
  | nil => rfl
  | cons c rest ih =>
    have hc : c ≠ '\n' := fun he => h (he ▸ List.mem_cons_self c rest)
    have hrest : '\n' ∉ rest := fun hm => h (List.mem_cons_of_mem c hm)
    rw [splitNL_cons, ih hrest]
    simp [hc]

theorem splitNL_append_newline (l t : List Char) (h : '\n' ∉ l) :
    splitNL (l ++ '\n' :: t) = l :: splitNL t := by
  induction l with
  | nil =>
    rcases hh : splitNL t with _ | ⟨h0, t0⟩
    · exact absurd hh (splitNL_ne_nil t)
    · show splitNL ('\n' :: t) = [] :: h0 :: t0
      rw [splitNL_cons, hh]
      simp
  | cons c rest ih =>
    have hc : c ≠ '\n' := fun he => h (he ▸ List.mem_cons_self c rest)
    have hrest : '\n' ∉ rest := fun hm => h (List.mem_cons_of_mem c hm)
    show splitNL (c :: (rest ++ '\n' :: t)) = _
    rw [splitNL_cons, ih hrest]
    simp [hc]

theorem splitNL_joinNL (L : List (List Char)) (hL : ∀ l ∈ L, '\n' ∉ l) (hne : L ≠ []) :
    splitNL (joinNL L) = L := by
  induction L with
  | nil => exact absurd rfl hne
  | cons l ls ih =>
    cases ls with
    | nil =>
      show splitNL (joinNL [l]) = [l]
      exact splitNL_single l (hL l (List.mem_cons_self l []))
    | cons l2 ls2 =>
      show splitNL (l ++ '\n' :: joinNL (l2 :: ls2)) = _
      rw [splitNL_append_newline l _ (hL l (List.mem_cons_self l _))]
      rw [ih (fun x hx => hL x (List.mem_cons_of_mem l hx)) (by simp)]

theorem joinNL_no_space (L : List (List Char)) (hL : ∀ l ∈ L, ∀ c ∈ l, c ≠ ' ') :
    ∀ c ∈ joinNL L, c ≠ ' ' := by
  induction L with
  | nil => intro c hc; cases hc
  | cons l ls ih =>
    cases ls with
    | nil =>
      intro c hc
      exact hL l (List.mem_cons_self l []) c hc
    | cons l2 ls2 =>
      intro c hc
      rcases List.mem_append.mp hc with hcl | hcr
      · exact hL l (List.mem_cons_self l _) c hcl
      · rcases List.mem_cons.mp hcr with rfl | hc2
        · decide
        · exact ih (fun x hx => hL x (List.mem_cons_of_mem l hx)) c hc2

theorem joinNL_no_newline_of (L : List (List Char)) (hL : ∀ l ∈ L, '\n' ∉ l) :
    ∀ l ∈ L, '\n' ∉ l := hL

theorem removeSpaces_id (s : List Char) (h : ∀ c ∈ s, c ≠ ' ') : removeSpaces s = s := by
  unfold removeSpaces
  rw [List.filter_eq_self]
  intro a ha
  simpa using h a ha

/-- Round trip: splitting the newline-joined cleaner output reproduces it
exactly, provided every line is space-free, newline-free and kept by the
length/`<<` filter. -/
theorem ocrSplitLines_joinNL (L : List (List Char))
    (hsp : ∀ l ∈ L, ∀ c ∈ l, c ≠ ' ')
    (hnl : ∀ l ∈ L, '\n' ∉ l)
    (hkeep : ∀ l ∈ L, keepLine l = true) :
    ocrSplitLines (joinNL L) = L := by
  unfold ocrSplitLines
  rw [removeSpaces_id _ (joinNL_no_space L hsp)]
  cases L with
  | nil => rfl
  | cons l ls =>
    rw [splitNL_joinNL _ hnl (by simp)]
    exact List.filter_eq_self.mpr hkeep

theorem fixLines_nil (tp : Fmt) (i : Nat) : fixLines tp i [] = [] := rfl

theorem fixLines_cons (tp : Fmt) (i : Nat) (l : List Char) (ls : List (List Char)) :
    fixLines tp i (l :: ls) = fixLine (fmtLine tp i) l :: fixLines tp (i + 1) ls := rfl

theorem fixLines_idem (tp : Fmt) (L : List (List Char))
    (hL : ∀ l ∈ L, ∀ c ∈ l, c.toNat < 128) :
    ∀ i, fixLines tp i (fixLines tp i L) = fixLines tp i L := by
  induction L with
  | nil => intro i; rfl
  | cons l ls ih =>
    intro i
    rw [fixLines_cons, fixLines_cons,
      fixLine_idem (fmtLine tp i) l (hL l (List.mem_cons_self l ls)),
      ih (fun x hx => hL x (List.mem_cons_of_mem l hx)) (i + 1)]

theorem fixLines_mem (tp : Fmt) (L : List (List Char)) :
    ∀ i, ∀ l' ∈ fixLines tp i L, ∃ l ∈ L, ∃ fmt, l' = fixLine fmt l := by
  induction L with
  | nil => intro i l' hl'; cases hl'
  | cons l ls ih =>
    intro i l' hl'
    rw [fixLines_cons] at hl'
    rcases List.mem_cons.mp hl' with rfl | hl''
    · exact ⟨l, List.mem_cons_self l ls, fmtLine tp i, rfl⟩
    · rcases ih (i + 1) l' hl'' with ⟨x, hx, fmt, hfix⟩
      exact ⟨x, List.mem_cons_of_mem l hx, fmt, hfix⟩

theorem fixLines_ascii (tp : Fmt) (L : List (List Char))
    (hL : ∀ l ∈ L, ∀ c ∈ l, c.toNat < 128) (i : Nat) :
    ∀ l' ∈ fixLines tp i L, ∀ c ∈ l', c.toNat < 128 := by
  intro l' hl'
  rcases fixLines_mem tp L i l' hl' with ⟨l, hl, fmt, rfl⟩
  exact fixLine_ascii fmt l (hL l hl)

/-- Closed form of the guesser on two string lines with a non-empty first
line: the format is decided by the two lengths and the upper-cased first
character. -/
theorem guess_str_pair (c : Char) (r s1 : List Char) :
    guessType [PyVal.str (c :: r), PyVal.str s1] =
      some (if (c :: r).length < 40 ∧ s1.length < 40
            then (if c.toUpper = 'V' then Fmt.MRVB else Fmt.TD2)
            else (if c.toUpper = 'V' then Fmt.MRVA else Fmt.TD3)) := by
  by_cases h0 : (c :: r).length < 40
  · have h0' : r.length + 1 < 40 := by simpa using h0
    by_cases h1 : s1.length < 40
    · rw [if_pos ⟨h0, h1⟩]
      simp [guessType, pyLen, pyIndex, vBranch, h0', h1]
    · rw [if_neg (fun hc => h1 hc.2)]
      simp [guessType, pyLen, pyIndex, vBranch, h0', h1]
  · have h0'' : ¬(r.length + 1 < 40) := by simpa using h0
    rw [if_neg (fun hc => h0 hc.1)]
    simp [guessType, pyLen, pyIndex, vBranch, h0'']

/-- The first table row of every two-line format starts with the alpha
class. -/
theorem fmtLine_zero_two (tp : Fmt) :
    tp = Fmt.TD2 ∨ tp = Fmt.TD3 ∨ tp = Fmt.MRVA ∨ tp = Fmt.MRVB →
    ∃ F, fmtLine tp 0 = Cls.ca :: F := by
  rintro (rfl | rfl | rfl | rfl)
  · exact ⟨List.replicate 35 Cls.cA, rfl⟩
  · exact ⟨List.replicate 43 Cls.cA, rfl⟩
  · exact ⟨List.replicate 43 Cls.cA, rfl⟩
  · exact ⟨List.replicate 43 Cls.cA, rfl⟩

/-- Fixing the lines with the guessed format does not change the guess:
line count, line lengths and the `V`-test of the upper-cased first character
are all preserved by the per-character fixers. -/
theorem guess_fix_invariant (tp : Fmt) (L : List (List Char))
    (hA : ∀ l ∈ L, ∀ c ∈ l, c.toNat < 128)
    (h : guessType (L.map PyVal.str) = some tp) :
    guessType ((fixLines tp 0 L).map PyVal.str) = some tp := by
  rcases L with _ | ⟨a, _ | ⟨b, _ | ⟨c, _ | ⟨d, t⟩⟩⟩⟩
  · simp [guessType] at h
  · simp [guessType] at h
  · -- two lines
    rcases a with _ | ⟨ha, ta⟩
    · -- empty first line: the guess raises and returns none
      by_cases h1 : b.length < 40 <;>
        simp [guessType, pyLen, pyIndex, vBranch, h1] at h
    · simp only [List.map_cons, List.map_nil] at h
      rw [guess_str_pair ha ta b] at h
      have htp := Option.some.inj h
      have h2 : tp = Fmt.TD2 ∨ tp = Fmt.TD3 ∨ tp = Fmt.MRVA ∨ tp = Fmt.MRVB := by
        rw [← htp]
        split_ifs <;> simp
      rcases fmtLine_zero_two tp h2 with ⟨F, hF⟩
      have hA0 : ∀ c ∈ ha :: ta, c.toNat < 128 :=
        hA (ha :: ta) (List.mem_cons_self _ _)
      have hA1 : ∀ c ∈ b, c.toNat < 128 :=
        hA b (List.mem_cons_of_mem _ (List.mem_cons_self b []))
      have hfix0 : fixLine (fmtLine tp 0) (ha :: ta) =
          clsFix Cls.ca ha.toUpper :: fixLine F ta := by
        rw [hF]
        exact fixLine_cons_ascii Cls.ca F ha ta (hA0 ha (List.mem_cons_self ha ta))
      rw [fixLines_cons, fixLines_cons, fixLines_nil, hfix0]
      simp only [List.map_cons, List.map_nil]
      rw [guess_str_pair (clsFix Cls.ca ha.toUpper) (fixLine F ta) (fixLine (fmtLine tp 1) b)]
      have hlen0 : (fixLine F ta).length = ta.length :=
        fixLine_length F ta (fun y hy => hA0 y (List.mem_cons_of_mem ha hy))
      have hlen1 : (fixLine (fmtLine tp 1) b).length = b.length :=
        fixLine_length _ b hA1
      have hVfix : ((clsFix Cls.ca ha.toUpper).toUpper = 'V') = (ha.toUpper = 'V') :=
        propext (fixChar_V ha)
      rw [← h]
      simp only [List.length_cons, hlen0, hlen1, hVfix]
  · -- three lines: TD1 regardless of content
    have htp : tp = Fmt.TD1 := by
      simp [guessType] at h
      exact h.symm
    subst htp
    rfl
  · -- four or more lines
    simp [guessType] at h

set_option maxRecDepth 8000 in
/-- Claim C10 as stated - idempotence for every input string - is false of
the program, because Python's `str.upper()` applies the Unicode full case
mapping: in the input below the sharp s 'ß' expands to "SS", lengthening the
first cleaned line from 39 to 40 characters.  The first pass guesses TD2
(both lines shorter than 40) and leaves the three trailing zeros beyond the
36-class TD2 row untouched; the second pass sees a 40-character line,
reclassifies as TD3, and its 44-class row rewrites those zeros to 'OOO' - so
the second application differs from the first. -/
theorem C10_counterexample :
    ocrCleanup c10Input =
      [pystr ("SS") ++ List.replicate 35 'O' ++ pystr ("000"),
       List.replicate 10 '0' ++ pystr ("OOO") ++ List.replicate 7 '0'] ∧
    ocrCleanup (joinNL (ocrCleanup c10Input)) =
      [pystr ("SS") ++ List.replicate 38 'O',
       List.replicate 10 '0' ++ pystr ("OOO") ++ List.replicate 7 '0'] ∧
    ocrCleanup (joinNL (ocrCleanup c10Input)) ≠ ocrCleanup c10Input := by
  refine ⟨?_, ?_, ?_⟩ <;> decide

/-- Claim C10, amended: on input made of ASCII characters - where `upper()`
maps every character to the single corresponding character - the OCR cleanup
is idempotent: re-running the cleaner on the newline-joined output of a first
run returns exactly the same lines. -/
theorem C10_amended (s : List Char) (h : ∀ c ∈ s, c.toNat < 128) :
    ocrCleanup (joinNL (ocrCleanup s)) = ocrCleanup s := by
  have hkeep : ∀ l ∈ ocrSplitLines s, keepLine l = true := fun l hl =>
    List.of_mem_filter hl
  have hsplit : ∀ l ∈ ocrSplitLines s, l ∈ splitNL (removeSpaces s) := fun l hl =>
    List.mem_of_mem_filter hl
  have hrs : ∀ c ∈ removeSpaces s, c ≠ ' ' := by
    intro c hc
    have := List.of_mem_filter hc
    simpa using this
  have hrsa : ∀ c ∈ removeSpaces s, c.toNat < 128 := fun c hc =>
    h c (List.mem_of_mem_filter hc)
  have hsp : ∀ l ∈ ocrSplitLines s, ∀ c ∈ l, c ≠ ' ' := fun l hl =>
    splitNL_chars (removeSpaces s) hrs l (hsplit l hl)
  have hnl : ∀ l ∈ ocrSplitLines s, '\n' ∉ l := fun l hl =>
    splitNL_no_newline (removeSpaces s) l (hsplit l hl)
  have hA : ∀ l ∈ ocrSplitLines s, ∀ c ∈ l, c.toNat < 128 := fun l hl =>
    splitNL_chars (removeSpaces s) hrsa l (hsplit l hl)
  rcases hg : guessType ((ocrSplitLines s).map PyVal.str) with _ | tp
  · have hclean : ocrCleanup s = ocrSplitLines s := by
      show (match guessType ((ocrSplitLines s).map PyVal.str) with
        | none => ocrSplitLines s
        | some tp2 => fixLines tp2 0 (ocrSplitLines s)) = ocrSplitLines s
      rw [hg]
    rw [hclean]
    have hround : ocrSplitLines (joinNL (ocrSplitLines s)) = ocrSplitLines s :=
      ocrSplitLines_joinNL _ hsp hnl hkeep
    unfold ocrCleanup
    rw [hround]
    show (match guessType ((ocrSplitLines s).map PyVal.str) with
      | none => ocrSplitLines s
      | some tp2 => fixLines tp2 0 (ocrSplitLines s)) = ocrSplitLines s
    rw [hg]
  · have hclean : ocrCleanup s = fixLines tp 0 (ocrSplitLines s) := by
      show (match guessType ((ocrSplitLines s).map PyVal.str) with
        | none => ocrSplitLines s
        | some tp2 => fixLines tp2 0 (ocrSplitLines s)) = fixLines tp 0 (ocrSplitLines s)
      rw [hg]
    rw [hclean]
    have hFkeep : ∀ l' ∈ fixLines tp 0 (ocrSplitLines s), keepLine l' = true := by
      intro l' hl'
      rcases fixLines_mem tp _ 0 l' hl' with ⟨l, hl, fmt, rfl⟩
      rw [keepLine_fixLine fmt l (hA l hl)]
      exact hkeep l hl
    have hFsp : ∀ l' ∈ fixLines tp 0 (ocrSplitLines s), ∀ c ∈ l', c ≠ ' ' := by
      intro l' hl'
      rcases fixLines_mem tp _ 0 l' hl' with ⟨l, hl, fmt, rfl⟩
      exact fixLine_no_mark (by decide) (by decide) (by decide) (by decide) (by decide)
        (by decide) (by decide) (by decide) fmt l (hA l hl) (hsp l hl)
    have hFnl : ∀ l' ∈ fixLines tp 0 (ocrSplitLines s), '\n' ∉ l' := by
      intro l' hl' hmem
      rcases fixLines_mem tp _ 0 l' hl' with ⟨l, hl, fmt, rfl⟩
      exact fixLine_no_mark (by decide) (by decide) (by decide) (by decide) (by decide)
        (by decide) (by decide) (by decide) fmt l (hA l hl)
        (fun c hc he => hnl l hl (by rw [← he]; exact hc)) '\n' hmem rfl
    have hround : ocrSplitLines (joinNL (fixLines tp 0 (ocrSplitLines s))) =
        fixLines tp 0 (ocrSplitLines s) :=
      ocrSplitLines_joinNL _ hFsp hFnl hFkeep
    have hguess : guessType ((fixLines tp 0 (ocrSplitLines s)).map PyVal.str) = some tp :=
      guess_fix_invariant tp _ hA hg
    unfold ocrCleanup
    rw [hround]
    show (match guessType ((fixLines tp 0 (ocrSplitLines s)).map PyVal.str) with
      | none => fixLines tp 0 (ocrSplitLines s)
      | some tp2 => fixLines tp2 0 (fixLines tp 0 (ocrSplitLines s))) =
        fixLines tp 0 (ocrSplitLines s)
    rw [hguess]
    exact fixLines_idem tp (ocrSplitLines s) hA 0

set_option maxRecDepth 8000 in
/-- Witness for the amended C10: the repository's own `from_ocr` doctest
input is all-ASCII, and cleaning it twice gives the lines of one pass. -/
theorem C10_amended_witness :
    ocrCleanup (joinNL (ocrCleanup (pystr
      ("\n\n this line useless \n IDAUT10000999<6  <<<<<<<<< <<<<<< \n 7IO9O94FIi  iz3iSAUT<<<<<<<<<<<4 \n MUSTERFRA  U<<ISOLDE<<<  <<<<<<<<<")))) =
    ocrCleanup (pystr
      ("\n\n this line useless \n IDAUT10000999<6  <<<<<<<<< <<<<<< \n 7IO9O94FIi  iz3iSAUT<<<<<<<<<<<4 \n MUSTERFRA  U<<ISOLDE<<<  <<<<<<<<<")) :=
  C10_amended (pystr
    ("\n\n this line useless \n IDAUT10000999<6  <<<<<<<<< <<<<<< \n 7IO9O94FIi  iz3iSAUT<<<<<<<<<<<4 \n MUSTERFRA  U<<ISOLDE<<<  <<<<<<<<<"))
    (by decide)
